import Mathlib

/-!
Verification of the TiMini-Print Bluetooth transport layer.

Shallow embedding of:
  * src/timiniprint/transport/bluetooth/types.py   (DeviceInfo, merge, dedupe)
  * src/timiniprint/transport/bluetooth/backend.py (_scan_blocking, _connect_blocking,
    _write_blocking, _resolve_rfcomm_channels)
  * src/timiniprint/transport/bluetooth/adapters/bleak_adapter.py
    (_BleakSocket._find_write_characteristic, _connect_async write-char step)
  * src/timiniprint/devices/models.py (PrinterModelRegistry.detect_with_origin,
    PrinterModelAliasRegistry.resolve, get_by_head_name, normalizers)
-/

namespace TiMini

/-! ## Data model: src/timiniprint/transport/bluetooth/types.py -/

/-- `DeviceTransport(str, Enum)` with values `"classic"` and `"ble"`. -/
inductive DeviceTransport
  | classic
  | ble
deriving DecidableEq

/-- The `.value` string of the transport enum member. -/
def DeviceTransport.value : DeviceTransport → String
  | .classic => "classic"
  | .ble => "ble"

/-- `DeviceInfo` frozen dataclass: name, address, tri-state paired, transport.
`paired = none` models Python `None` (unknown). -/
structure DeviceInfo where
  name : String
  address : String
  paired : Option Bool := none
  transport : DeviceTransport := .classic
deriving DecidableEq

/-- The identity key of a device: `(address, transport)`. -/
def devKey (d : DeviceInfo) : String × DeviceTransport :=
  (d.address, d.transport)

/-- The name resolution of `DeviceInfo.merge`: the longer of two non-empty
names (`self` wins ties), otherwise `self.name or other.name`. -/
def mergeNameOp (x y : String) : String :=
  if x ≠ "" ∧ y ≠ "" then
    if y.length ≤ x.length then x else y
  else
    if x ≠ "" then x else y

/-- The paired-flag resolution of `DeviceInfo.merge`: `True` if either side is
`True`, else `False` if either side is `False`, else `None`. -/
def mergePairedOp (x y : Option Bool) : Option Bool :=
  if x = some true ∨ y = some true then some true
  else if x = some false ∨ y = some false then some false
  else none

/-- Body of `DeviceInfo.merge` after the address/transport guard;
address/transport come from `self`. -/
def DeviceInfo.mergeUnchecked (a b : DeviceInfo) : DeviceInfo :=
  { name := mergeNameOp a.name b.name, address := a.address,
    paired := mergePairedOp a.paired b.paired, transport := a.transport }

/-- `DeviceInfo.merge`, raising `ValueError` (modelled as `.error`) when the
addresses or transports differ. -/
def DeviceInfo.merge (a b : DeviceInfo) : Except String DeviceInfo :=
  if a.address ≠ b.address ∨ a.transport ≠ b.transport then
    .error "Cannot merge devices with different addresses or transports"
  else
    .ok (a.mergeUnchecked b)

/-- One step of the `by_addr` dict update in `DeviceInfo.dedupe`: replace the
first entry with the same key by the merged record, otherwise append a fresh
entry (Python dict insertion-order semantics). -/
def upsert : List ((String × DeviceTransport) × DeviceInfo) → DeviceInfo →
    List ((String × DeviceTransport) × DeviceInfo)
  | [], d => [(devKey d, d)]
  | (k, v) :: rest, d =>
    if devKey d = k then (k, v.mergeUnchecked d) :: rest
    else (k, v) :: upsert rest d

/-- The dict-building loop of `DeviceInfo.dedupe` over the input list. -/
def dedupeAux : List DeviceInfo → List ((String × DeviceTransport) × DeviceInfo) →
    List ((String × DeviceTransport) × DeviceInfo)
  | [], m => m
  | d :: rest, m => dedupeAux rest (upsert m d)

/-- The Python sort key `(item.name or "", item.address, item.transport.value)`
compared tuple-lexicographically, as a boolean `≤`. -/
def devLE (a b : DeviceInfo) : Bool :=
  if a.name ≠ b.name then decide (a.name < b.name)
  else if a.address ≠ b.address then decide (a.address < b.address)
  else decide (a.transport.value ≤ b.transport.value)

/-- `DeviceInfo.dedupe`: fold the list into the `(address, transport)`-keyed
dict, take the values in insertion order, and sort them by
`(name, address, transport.value)`. -/
def DeviceInfo.dedupe (devices : List DeviceInfo) : List DeviceInfo :=
  ((dedupeAux devices []).map Prod.snd).mergeSort devLE

/-! ## Scan: `_scan_blocking` in src/timiniprint/transport/bluetooth/backend.py -/

/-- Outcome of one transport's adapter lookup plus `scan_blocking` call:
the adapter may be absent, return a device list, or raise. -/
inductive AdapterOutcome
  | missing
  | ok (devices : List DeviceInfo)
  | err (msg : String)
deriving DecidableEq

/-- `ScanFailure` record; the carried exception is modelled by its message. -/
structure ScanFailure where
  transport : DeviceTransport
  error : String
deriving DecidableEq

/-- Devices gathered from one transport in `_scan_blocking` (stays `[]` when
the transport is skipped, the adapter is missing, or the scan raised). -/
def outcomeDevices (include_ : Bool) : AdapterOutcome → List DeviceInfo
  | .ok ds => if include_ then ds else []
  | _ => []

/-- The captured failure for one transport in `_scan_blocking`
(`None` when the transport is skipped or the scan succeeded). -/
def outcomeFailure (include_ : Bool) (missingMsg : String) : AdapterOutcome → Option String
  | .missing => if include_ then some missingMsg else none
  | .err m => if include_ then some m else none
  | .ok _ => none

/-- Renders one failure for the aggregate error text: `"<transport>: <cause>"`. -/
def failureText (f : ScanFailure) : String :=
  f.transport.value ++ ": " ++ f.error

/-- `_scan_blocking(timeout, include_classic, include_ble)`.  The two adapter
outcomes stand for `_get_classic_adapter()` / `_get_ble_adapter()` plus their
`scan_blocking` calls; the timeout only flows into those calls and is dropped. -/
def scan_blocking (include_classic include_ble : Bool)
    (classic ble : AdapterOutcome) :
    Except String (List DeviceInfo × List ScanFailure) :=
  let classic_devices := outcomeDevices include_classic classic
  let ble_devices := outcomeDevices include_ble ble
  let classic_failure := outcomeFailure include_classic "Classic Bluetooth not supported" classic
  let ble_failure := outcomeFailure include_ble "BLE Bluetooth not supported" ble
  let attempts := (if include_classic then 1 else 0) + (if include_ble then 1 else 0)
  let failures :=
    (match classic_failure with
      | some e => [ScanFailure.mk .classic e]
      | none => []) ++
    (match ble_failure with
      | some e => [ScanFailure.mk .ble e]
      | none => [])
  if classic_devices ≠ [] then
    .ok (DeviceInfo.dedupe classic_devices, [])
  else if ble_devices ≠ [] then
    .ok (DeviceInfo.dedupe ble_devices, failures)
  else if attempts ≠ 0 ∧ failures ≠ [] ∧ attempts ≤ failures.length then
    .error ("Bluetooth scan failed (" ++
      String.intercalate "; " (failures.map failureText) ++ ")")
  else
    .ok ([], failures)

/-- A transport attempt counts as failed when the adapter is absent or its
scan raised (the outcomes that set `classic_failure` / `ble_failure`). -/
def outcomeFailed : AdapterOutcome → Bool
  | .ok _ => false
  | _ => true

/-- A transport attempt that returned no error but also no devices. -/
def outcomeEmptyOk : AdapterOutcome → Bool
  | .ok ds => ds.isEmpty
  | _ => false

/-- The cause recorded for a failed transport: the not-supported message when
the adapter is absent, otherwise the raised error's message. -/
def outcomeCause (missingMsg : String) : AdapterOutcome → String
  | .missing => missingMsg
  | .err m => m
  | .ok _ => ""

/-! ## Channel resolution: `_resolve_rfcomm_channels` and constants.py -/

/-- `RFCOMM_CHANNELS = [1, 2, 3, 4, 5]` from constants.py. -/
def RFCOMM_CHANNELS : List Nat := [1, 2, 3, 4, 5]

/-- Python `channel or RFCOMM_CHANNELS[0]`: `None` and `0` are falsy. -/
def channelOrDefault (c : Option Nat) : Nat :=
  match c with
  | some v => if v = 0 then 1 else v
  | none => 1

/-- `_resolve_rfcomm_channels(adapter, address)`: single-channel adapters get a
one-element list; otherwise the resolved channel (when any) goes first followed
by the fixed fallback list with its duplicate removed. -/
def resolve_rfcomm_channels (single_channel : Bool) (resolved : Option Nat) : List Nat :=
  if single_channel then [channelOrDefault resolved]
  else
    match resolved with
    | none => RFCOMM_CHANNELS
    | some c => c :: RFCOMM_CHANNELS.filter (fun x => x ≠ c)

/-! ## Connect: `SppBackend._connect_blocking` -/

/-- Result of `sock = adapter.create_socket(...); sock.settimeout(8);
sock.connect((address, channel))` for one channel: success, or an exception
with its `_is_timeout_error` classification and message. -/
inductive ConnectOutcome
  | ok
  | err (isTimeout : Bool) (msg : String)
deriving DecidableEq

/-- The adapter capabilities consumed by `_connect_blocking`, with the
environment's responses pre-recorded: `ensure_paired` either returns or raises,
`resolve_rfcomm_channel` yields an optional channel, `single_channel` is the
adapter flag, and `connectOutcome c` is what the socket attempt on channel `c`
does. -/
structure AdapterModel where
  ensurePaired : Except String Unit
  resolvedChannel : Option Nat
  singleChannel : Bool
  connectOutcome : Nat → ConnectOutcome

/-- Mutable fields of `SppBackend` touched by connect/write/disconnect.  The
live socket is identified by the channel it connected on. -/
structure BackendState where
  sock : Option Nat := none
  connected : Bool := false
  channel : Option Nat := none
  transport : Option DeviceTransport := none
deriving DecidableEq

/-- Observable actions of `_connect_blocking` recorded for frame reasoning. -/
inductive ConnectEvent
  | pairAttempt
  | socketCreate (channel : Nat)
  | connectAttempt (channel : Nat)
deriving DecidableEq

/-- The `for channel in channels` loop: try each channel in order, stop at the
first success, remember the last exception.  Returns (winning channel if any,
last error if any, events in order). -/
def connectLoop (outcome : Nat → ConnectOutcome) :
    List Nat → Option (Bool × String) →
    Option Nat × Option (Bool × String) × List ConnectEvent
  | [], lastErr => (none, lastErr, [])
  | c :: rest, lastErr =>
    match outcome c with
    | .ok => (some c, lastErr, [.socketCreate c, .connectAttempt c])
    | .err t m =>
      let r := connectLoop outcome rest (some (t, m))
      (r.1, r.2.1, .socketCreate c :: .connectAttempt c :: r.2.2)

/-- Python `repr` of the channel list, as interpolated into the error text. -/
def channelsText (l : List Nat) : String :=
  "[" ++ String.intercalate ", " (l.map toString) ++ "]"

/-- `SppBackend._connect_blocking(device, pairing_hint)`.  Returns the raised
error (if any), the resulting backend state, and the event trace. -/
def connect_blocking (st : BackendState) (device : DeviceInfo)
    (adapter : Option AdapterModel) :
    Except String Unit × BackendState × List ConnectEvent :=
  if st.connected then (.ok (), st, [])
  else
    match adapter with
    | none =>
      (.error (device.transport.value ++ " Bluetooth is not supported on this platform"),
        st, [])
    | some a =>
      let pairError : Option String :=
        match a.ensurePaired with
        | .ok _ => none
        | .error e => some e
      let channels := resolve_rfcomm_channels a.singleChannel a.resolvedChannel
      let r := connectLoop a.connectOutcome channels none
      let events := ConnectEvent.pairAttempt :: r.2.2
      match r.1 with
      | some c =>
        (.ok (),
          { sock := some c, connected := true, channel := some c,
            transport := some device.transport }, events)
      | none =>
        match r.2.1 with
        | some (true, _) =>
          match pairError with
          | some p =>
            (.error ("Bluetooth connection timed out. Pairing attempt failed: " ++ p ++
              ". Tried RFCOMM channels: " ++ channelsText channels ++ "."), st, events)
          | none =>
            (.error ("Bluetooth connection timed out. Make sure the printer is on, in range, and paired. Tried RFCOMM channels: " ++
              channelsText channels ++ "."), st, events)
        | lastErr =>
          let detail := "channels tried: " ++ channelsText channels
          let detail :=
            match pairError with
            | some p => detail ++ ", pairing failed: " ++ p
            | none => detail
          let detail :=
            match lastErr with
            | some (_, m) => detail ++ ", last error: " ++ m
            | none => detail
          (.error ("Bluetooth connection failed (" ++ detail ++ ")"), st, events)

/-! ## Write: `SppBackend._write_blocking` -/

/-- Observable actions of `_write_blocking`: lock acquisition/release around
each `_send_all`, the chunk sent, and the inter-chunk sleep. -/
inductive WriteEvent
  | acquireLock
  | send (chunk : List Nat)
  | releaseLock
  | sleep (ms : Nat)
deriving DecidableEq

/-- The chunking loop of `_write_blocking`: slice `chunk_size` bytes, send them
under the lock, advance, and sleep `interval_ms` when it is non-zero.  The
source loops forever on `chunk_size = 0`; that case is cut off (no claim uses
it). -/
def writeLoop : List Nat → Nat → Nat → List WriteEvent
  | [], _, _ => []
  | d :: rest, chunk_size, interval_ms =>
    if h : chunk_size = 0 then []
    else
      [WriteEvent.acquireLock, .send ((d :: rest).take chunk_size), .releaseLock] ++
      (if interval_ms ≠ 0 then [WriteEvent.sleep interval_ms] else []) ++
      writeLoop ((d :: rest).drop chunk_size) chunk_size interval_ms
termination_by d _ _ => (d : List Nat).length
decreasing_by
  simp only [List.length_drop, List.length_cons]
  omega

/-- `SppBackend._write_blocking(data, chunk_size, interval_ms)`: raises when
there is no live socket or the backend is not connected, otherwise runs the
chunk loop. -/
def write_blocking (st : BackendState) (data : List Nat)
    (chunk_size interval_ms : Nat) : Except String Unit × List WriteEvent :=
  if st.sock = none ∨ st.connected = false then
    (.error "Not connected to a Bluetooth device", [])
  else
    (.ok (), writeLoop data chunk_size interval_ms)

/-- The consecutive `chunk_size`-byte slices of the payload, in order. -/
def chunksOf : List Nat → Nat → List (List Nat)
  | [], _ => []
  | d :: rest, chunk_size =>
    if h : chunk_size = 0 then []
    else
      (d :: rest).take chunk_size :: chunksOf ((d :: rest).drop chunk_size) chunk_size
termination_by d _ => (d : List Nat).length
decreasing_by
  simp only [List.length_drop, List.length_cons]
  omega

/-- The lengths of the consecutive chunks of an `n`-byte payload. -/
def chunkSizes : Nat → Nat → List Nat
  | 0, _ => []
  | n + 1, chunk_size =>
    if h : chunk_size = 0 then []
    else min chunk_size (n + 1) :: chunkSizes (n + 1 - chunk_size) chunk_size
termination_by n _ => n + 1
decreasing_by omega

/-! ## Printer model registry: src/timiniprint/devices/models.py -/

/-- Python `str.lower`, at the character-list level. -/
def strToLower (s : String) : String :=
  String.mk (s.data.map Char.toLower)

/-- Python `str.upper`, at the character-list level. -/
def strToUpper (s : String) : String :=
  String.mk (s.data.map Char.toUpper)

/-- Python `str.startswith`, at the character-list level. -/
def strStartsWith (s pre : String) : Bool :=
  pre.data.isPrefixOf s.data

/-- Python `str.endswith`, at the character-list level. -/
def strEndsWith (s post : String) : Bool :=
  post.data.isSuffixOf s.data

/-- `PrinterModelAliasNormalizer.normalize_alias_name`: strip all whitespace,
uppercase. -/
def normalize_alias_name (value : String) : String :=
  strToUpper (String.mk (value.data.filter (fun c => ¬ c.isWhitespace)))

/-- `PrinterModelAliasNormalizer.normalize_mac_candidate`: uppercase, then keep
only hexadecimal digits. -/
def normalize_mac_candidate (value : String) : String :=
  String.mk ((strToUpper value).data.filter (fun c => c.isDigit ∨ ('A' ≤ c ∧ c ≤ 'F')))

/-- `PrinterModelMatchSource` enum. -/
inductive PrinterModelMatchSource
  | headName
  | modelNo
  | alias
deriving DecidableEq

/-- `PrinterModelAliasKind` enum. -/
inductive PrinterModelAliasKind
  | headName
  | mac
deriving DecidableEq

/-- `PrinterModel` frozen dataclass (all fields of the source profile). -/
structure PrinterModel where
  model_no : String
  model : Nat
  size : Nat
  paper_size : Nat
  print_size : Nat
  one_length : Nat
  head_name : String
  can_change_mtu : Bool
  dev_dpi : Nat
  img_print_speed : Nat
  text_print_speed : Nat
  img_mtu : Nat
  new_compress : Bool
  paper_num : Nat
  interval_ms : Nat
  thin_energy : Nat
  moderation_energy : Nat
  deepen_energy : Nat
  text_energy : Nat
  has_id : Bool
  use_spp : Bool
  new_format : Bool
  can_print_label : Bool
  label_value : String
  back_paper_num : Nat
  a4xii : Bool := false
  add_mor_pix : Option Bool := none
deriving DecidableEq

/-- `PrinterModel.width` property. -/
def PrinterModel.width (m : PrinterModel) : Nat :=
  m.print_size

/-- `PrinterModelMatch` frozen dataclass. -/
structure PrinterModelMatch where
  model : PrinterModel
  source : PrinterModelMatchSource
  alias_kind : Option PrinterModelAliasKind := none
deriving DecidableEq

/-- `PrinterModelMatch.used_alias`: true iff the source is the alias stage. -/
def PrinterModelMatch.usedAlias (m : PrinterModelMatch) : Bool :=
  m.source = PrinterModelMatchSource.alias

/-- `PrinterModelAliasMatch` frozen dataclass. -/
structure PrinterModelAliasMatch where
  target_head_name : String
  kind : PrinterModelAliasKind
deriving DecidableEq

/-- `PrinterModelHeadAlias`: name-prefix aliases targeting a head name. -/
structure PrinterModelHeadAlias where
  prefixes : List String
  map_model_head_name : String
deriving DecidableEq

/-- The cached `_normalized_prefixes` of a head alias. -/
def PrinterModelHeadAlias.normalizedPrefixes (a : PrinterModelHeadAlias) : List String :=
  a.prefixes.map normalize_alias_name

/-- `PrinterModelHeadAlias.match_length`: the longest normalized prefix of the
alias that the normalized device name starts with (0 when none matches). -/
def PrinterModelHeadAlias.matchLength (a : PrinterModelHeadAlias)
    (normalizedName : String) : Nat :=
  a.normalizedPrefixes.foldl
    (fun longest p =>
      if strStartsWith normalizedName p then max longest p.length else longest) 0

/-- `PrinterModelMacAlias`: MAC-suffix aliases targeting a head name. -/
structure PrinterModelMacAlias where
  suffixes : List String
  map_model_head_name : String
deriving DecidableEq

/-- The cached `_normalized_suffixes` of a MAC alias. -/
def PrinterModelMacAlias.normalizedSuffixes (a : PrinterModelMacAlias) : List String :=
  a.suffixes.map strToUpper

/-- Python `str.strip()`: drop leading and trailing whitespace. -/
def stripStr (s : String) : String :=
  String.mk (((s.data.dropWhile Char.isWhitespace).reverse.dropWhile
    Char.isWhitespace).reverse)

/-- `PrinterModelMacAlias.matches`: candidate strings are the stripped
uppercased address plus (when distinct and non-empty) its hex-only
normalization; the alias matches when any candidate ends with any normalized
suffix. -/
def PrinterModelMacAlias.matches (a : PrinterModelMacAlias)
    (address : Option String) : Bool :=
  match address with
  | none => false
  | some addr =>
    if addr = "" then false
    else
      let candidates := [strToUpper (stripStr addr)]
      let normalized := normalize_mac_candidate addr
      let candidates :=
        if normalized ≠ "" ∧ normalized ∉ candidates then candidates ++ [normalized]
        else candidates
      a.normalizedSuffixes.any (fun suffix =>
        candidates.any (fun candidate => strEndsWith candidate suffix))

/-- `PrinterModelAliasRegistry` holding the loaded alias lists. -/
structure PrinterModelAliasRegistry where
  headAliases : List PrinterModelHeadAlias
  macAliases : List PrinterModelMacAlias
deriving DecidableEq

/-- One step of the first-wins argmax loop
(Python `if cond: if best is None or weight > best_weight: best = x`). -/
def selectMaxStep {α : Type} (cond : α → Bool) (weight : α → Nat)
    (acc : Option α) (x : α) : Option α :=
  if cond x then
    match acc with
    | none => some x
    | some m => if weight m < weight x then some x else acc
  else acc

/-- The shared first-wins argmax loop: scan the list in order, keeping the
first element of strictly greatest weight among those satisfying `cond`. -/
def selectMax {α : Type} (cond : α → Bool) (weight : α → Nat) (l : List α) :
    Option α :=
  l.foldl (selectMaxStep cond weight) none

/-- `PrinterModelAliasRegistry.resolve(name, address)`: find the head alias
with the longest positive prefix match against the normalized name (first wins
ties); when found, the first MAC alias matching the address overrides the
target. -/
def PrinterModelAliasRegistry.resolve (reg : PrinterModelAliasRegistry)
    (name : String) (address : Option String) : Option PrinterModelAliasMatch :=
  if name = "" ∨ reg.headAliases = [] then none
  else
    let normalizedName := normalize_alias_name name
    match selectMax (fun a => 0 < a.matchLength normalizedName)
        (fun a => a.matchLength normalizedName) reg.headAliases with
    | none => none
    | some m =>
      match reg.macAliases.find? (fun ma => ma.matches address) with
      | some ma => some ⟨ma.map_model_head_name, .mac⟩
      | none => some ⟨m.map_model_head_name, .headName⟩

/-- `PrinterModelRegistry` with its loaded models and alias registry. -/
structure PrinterModelRegistry where
  models : List PrinterModel
  aliases : PrinterModelAliasRegistry
deriving DecidableEq

/-- `PrinterModelRegistry.get_by_head_name`: first model whose non-empty
head name equals the target case-insensitively, else first model whose
model number equals it case-insensitively. -/
def PrinterModelRegistry.get_by_head_name (reg : PrinterModelRegistry)
    (head_name : String) : Option PrinterModel :=
  if head_name = "" then none
  else
    let target := strToLower head_name
    match reg.models.find? (fun m => m.head_name ≠ "" ∧ strToLower m.head_name = target) with
    | some m => some m
    | none => reg.models.find? (fun m => strToLower m.model_no = target)

/-- Stage 1 of `detect_with_origin`: the first model with the longest
non-empty `head_name` that is a case-insensitive prefix of the device name. -/
def headNameStage (models : List PrinterModel) (nameLower : String) :
    Option PrinterModel :=
  selectMax (fun m => m.head_name ≠ "" ∧ strStartsWith nameLower (strToLower m.head_name))
    (fun m => m.head_name.length) models

/-- Stage 2 of `detect_with_origin`: the first model with the longest
`model_no` that is a case-insensitive prefix of the device name. -/
def modelNoStage (models : List PrinterModel) (nameLower : String) :
    Option PrinterModel :=
  selectMax (fun m => strStartsWith nameLower (strToLower m.model_no))
    (fun m => m.model_no.length) models

/-- `PrinterModelRegistry._detect_from_alias`: resolve an alias and map its
target head name back to a model. -/
def PrinterModelRegistry.detect_from_alias (reg : PrinterModelRegistry)
    (name : String) (address : Option String) : Option PrinterModelMatch :=
  match reg.aliases.resolve name address with
  | none => none
  | some am =>
    match reg.get_by_head_name am.target_head_name with
    | none => none
    | some m => some ⟨m, .alias, some am.kind⟩

/-- `PrinterModelRegistry.detect_with_origin(name, address)`: head-name stage,
then model-number stage, then alias stage. -/
def PrinterModelRegistry.detect_with_origin (reg : PrinterModelRegistry)
    (name : String) (address : Option String) : Option PrinterModelMatch :=
  if name = "" then none
  else
    let nameLower := strToLower name
    match headNameStage reg.models nameLower with
    | some m => some ⟨m, .headName, none⟩
    | none =>
      match modelNoStage reg.models nameLower with
      | some m => some ⟨m, .modelNo, none⟩
      | none => reg.detect_from_alias name address

/-! ## BLE write-characteristic search:
src/timiniprint/transport/bluetooth/adapters/bleak_adapter.py -/

/-- A GATT characteristic: UUID plus its property strings. -/
structure BleCharacteristic where
  uuid : String
  properties : List String
deriving DecidableEq

/-- A GATT service: UUID plus its characteristics. -/
structure BleService where
  uuid : String
  characteristics : List BleCharacteristic
deriving DecidableEq

/-- `_BleakSocket._find_write_characteristic`: when connected, return the first
characteristic (service order, then characteristic order) whose properties
contain `"write"`; failing that, the first whose properties contain
`"write-without-response"`. -/
def find_write_characteristic (connected : Bool) (services : List BleService) :
    Option BleCharacteristic :=
  if ¬ connected then none
  else
    match services.findSome?
        (fun s => s.characteristics.find? (fun c => "write" ∈ c.properties)) with
    | some c => some c
    | none =>
      services.findSome?
        (fun s => s.characteristics.find?
          (fun c => "write-without-response" ∈ c.properties))

/-- The tail of `_BleakSocket._connect_async`: discover the write
characteristic and raise a hard error naming the device when none exists. -/
def connect_find_write_step (address : String) (connected : Bool)
    (services : List BleService) : Except String BleCharacteristic :=
  match find_write_characteristic connected services with
  | some c => .ok c
  | none =>
    .error ("Could not find a writable GATT characteristic on device " ++ address ++
      ". The device may not support BLE printing, or uses unknown UUIDs.")

/-- Modelled from the spec: the "short table of known printer-service /
characteristic UUIDs" the spec says is tried first (the values are the
`COMMON_PRINTER_SERVICES` table of the macOS adapter, the only such table in
the repository). -/
def COMMON_PRINTER_SERVICES : List String :=
  ["6e400001-b5a3-f393-e0a9-e50e24dcca9e",
   "0000ff00-0000-1000-8000-00805f9b34fb",
   "0000ae30-0000-1000-8000-00805f9b34fb",
   "49535343-fe7d-4ae5-8fa9-9fafd205e455",
   "0000fff0-0000-1000-8000-00805f9b34fb"]

/-- Modelled from the spec: the known write-characteristic UUID table
(`COMMON_WRITE_CHARS` of the macOS adapter). -/
def COMMON_WRITE_CHARS : List String :=
  ["6e400002-b5a3-f393-e0a9-e50e24dcca9e",
   "0000ff02-0000-1000-8000-00805f9b34fb",
   "0000ae01-0000-1000-8000-00805f9b34fb",
   "49535343-8841-43f4-a8d4-ecbe34729bb3",
   "0000fff2-0000-1000-8000-00805f9b34fb"]

/-- Modelled from the spec: the claimed discovery order — "first try a short
table of known printer-service/characteristic UUIDs ..., then fall back to
scanning all services for a characteristic with a write property", preferring
write-with-response. -/
def find_write_characteristic_spec (connected : Bool)
    (services : List BleService) : Option BleCharacteristic :=
  if ¬ connected then none
  else
    match COMMON_PRINTER_SERVICES.findSome? (fun su =>
        match services.find? (fun s => s.uuid = su) with
        | none => none
        | some s =>
          COMMON_WRITE_CHARS.findSome? (fun cu =>
            match s.characteristics.find? (fun c => c.uuid = cu) with
            | none => none
            | some c =>
              if "write" ∈ c.properties ∨ "write-without-response" ∈ c.properties then
                some c
              else none)) with
    | some c => some c
    | none =>
      match services.findSome?
          (fun s => s.characteristics.find? (fun c => "write" ∈ c.properties)) with
      | some c => some c
      | none =>
        services.findSome?
          (fun s => s.characteristics.find?
            (fun c => "write-without-response" ∈ c.properties))

/-! ## Helper observables used by the theorems -/

/-- `hay` contains `needle` as a contiguous substring. -/
def strContains (hay needle : String) : Prop :=
  ∃ pre post, hay.data = pre ++ needle.data ++ post

/-- The chunks sent by a write trace, in order. -/
def sendsOf (evs : List WriteEvent) : List (List Nat) :=
  evs.filterMap (fun e =>
    match e with
    | .send c => some c
    | _ => none)

/-- Every send in the trace happens inside an acquire/release bracket. -/
def sendsLocked : List WriteEvent → Bool
  | [] => true
  | WriteEvent.acquireLock :: WriteEvent.send _ :: WriteEvent.releaseLock :: rest =>
    sendsLocked rest
  | WriteEvent.send _ :: _ => false
  | _ :: rest => sendsLocked rest

/-- The trace restricted to its sends and sleeps. -/
def sendSleepOnly (evs : List WriteEvent) : List WriteEvent :=
  evs.filter (fun e =>
    match e with
    | .send _ => true
    | .sleep _ => true
    | _ => false)

/-- The channels on which a socket connect was attempted, in order. -/
def attemptsOf (evs : List ConnectEvent) : List Nat :=
  evs.filterMap (fun e =>
    match e with
    | .connectAttempt c => some c
    | _ => none)

/-- The prefix of the candidate list the connect loop walks: every channel up
to and including the first successful one (all of them when none succeeds). -/
def triedChannels (outcome : Nat → ConnectOutcome) : List Nat → List Nat
  | [] => []
  | c :: rest =>
    match outcome c with
    | .ok => [c]
    | .err _ _ => c :: triedChannels outcome rest

/-- First-match lookup in the association list modelling the Python dict. -/
def lookupKey : List ((String × DeviceTransport) × DeviceInfo) →
    (String × DeviceTransport) → Option DeviceInfo
  | [], _ => none
  | (k', v) :: rest, k => if k' = k then some v else lookupKey rest k

/-- A model profile with only the identification fields populated, for
concrete detection examples. -/
def mkTestModel (head_name model_no : String) : PrinterModel :=
  { model_no := model_no, model := 0, size := 0, paper_size := 0, print_size := 0,
    one_length := 0, head_name := head_name, can_change_mtu := false, dev_dpi := 0,
    img_print_speed := 0, text_print_speed := 0, img_mtu := 0, new_compress := false,
    paper_num := 0, interval_ms := 0, thin_energy := 0, moderation_energy := 0,
    deepen_energy := 0, text_energy := 0, has_id := false, use_spp := false,
    new_format := false, can_print_label := false, label_value := "",
    back_paper_num := 0 }

/-- The dict-valued fold describing what one key's entry accumulates to:
start from the current entry (if any) and merge each further duplicate. -/
def optFold (o : Option DeviceInfo) (ds : List DeviceInfo) : Option DeviceInfo :=
  ds.foldl
    (fun acc d =>
      match acc with
      | none => some d
      | some v => some (v.mergeUnchecked d)) o

/-! ## Theorems -/

/-- C1: whenever the classic adapter scan returns a non-empty device list,
`scan_with_failures` returns exactly those classic devices deduplicated and an
empty failure list, whatever the BLE transport returned or raised. -/
theorem claim_C1_classic_priority (include_ble : Bool) (ble : AdapterOutcome)
    (ds : List DeviceInfo) (h : ds ≠ []) :
    scan_blocking true include_ble (.ok ds) ble = .ok (DeviceInfo.dedupe ds, []) := by
  simp [scan_blocking, outcomeDevices, h]

/-- Witness for C1 at a concrete scan: two duplicate classic devices and a
raising BLE scan. -/
theorem claim_C1_classic_priority_witness :
    scan_blocking true true
      (.ok [{ name := "P1", address := "AA" }, { name := "P1", address := "AA" }])
      (.err "ble boom") =
      .ok (DeviceInfo.dedupe
        [{ name := "P1", address := "AA" }, { name := "P1", address := "AA" }], []) :=
  claim_C1_classic_priority true (.err "ble boom") _ (by decide)

/-- C4: the channel-candidate list is the resolved channel followed by the
fixed fallback channels minus its duplicate (`3 ↦ [3,1,2,4,5]`); `[1,2,3,4,5]`
when nothing resolves; and a single element for single-channel adapters. -/
theorem claim_C4_channel_candidates :
    (∀ c : Nat, resolve_rfcomm_channels false (some c) =
      c :: RFCOMM_CHANNELS.filter (fun x => x ≠ c)) ∧
    resolve_rfcomm_channels false (some 3) = [3, 1, 2, 4, 5] ∧
    resolve_rfcomm_channels false none = [1, 2, 3, 4, 5] ∧
    (∀ resolved : Option Nat, (resolve_rfcomm_channels true resolved).length = 1) :=
  ⟨fun c => by simp [resolve_rfcomm_channels], by decide, by decide,
    fun resolved => by simp [resolve_rfcomm_channels]⟩

/-- C10: a connect on an already-connected backend returns at once: no pairing
attempt, no socket creation, no state change — for any requested device. -/
theorem claim_C10_connected_noop (st : BackendState) (device : DeviceInfo)
    (adapter : Option AdapterModel) (h : st.connected = true) :
    connect_blocking st device adapter = (.ok (), st, []) := by
  simp [connect_blocking, h]

/-- Witness for C10: connected backend, a different target device, an adapter
whose pairing and connects would all fail — nothing of it runs. -/
theorem claim_C10_connected_noop_witness :
    connect_blocking
      { sock := some 1, connected := true, channel := some 1, transport := some .classic }
      { name := "Other", address := "BB", transport := .ble }
      (some { ensurePaired := .error "pairfail", resolvedChannel := some 3,
              singleChannel := false, connectOutcome := fun _ => .err false "refused" }) =
      (.ok (),
        { sock := some 1, connected := true, channel := some 1, transport := some .classic },
        []) :=
  claim_C10_connected_noop _ _ _ rfl

/-- C8 counterexample: `merge` is not commutative — with equal-length distinct
non-empty names, each order keeps its first argument's name. -/
theorem claim_C8_counterexample :
    DeviceInfo.merge { name := "AB", address := "X" } { name := "CD", address := "X" } =
        .ok { name := "AB", address := "X" } ∧
      DeviceInfo.merge { name := "CD", address := "X" } { name := "AB", address := "X" } =
        .ok { name := "CD", address := "X" } ∧
      DeviceInfo.merge { name := "AB", address := "X" } { name := "CD", address := "X" } ≠
        DeviceInfo.merge { name := "CD", address := "X" } { name := "AB", address := "X" } := by
  refine ⟨rfl, rfl, fun h => ?_⟩
  rw [show DeviceInfo.merge { name := "AB", address := "X" } { name := "CD", address := "X" } =
      .ok { name := "AB", address := "X" } from rfl,
    show DeviceInfo.merge { name := "CD", address := "X" } { name := "AB", address := "X" } =
      .ok { name := "CD", address := "X" } from rfl] at h
  exact absurd (Except.ok.inj h) (by decide)

lemma mergeNameOp_empty_left (y : String) : mergeNameOp "" y = y := by
  simp [mergeNameOp]

lemma mergeNameOp_empty_right (x : String) : mergeNameOp x "" = x := by
  by_cases hx : x = "" <;> simp [mergeNameOp, hx]

lemma mergeNameOp_of_ne {x y : String} (hx : x ≠ "") (hy : y ≠ "") :
    mergeNameOp x y = if y.length ≤ x.length then x else y := by
  simp [mergeNameOp, hx, hy]

lemma mergeNameOp_length (x y : String) :
    (mergeNameOp x y).length = max x.length y.length := by
  by_cases hx : x = ""
  · subst hx; simp [mergeNameOp_empty_left]
  by_cases hy : y = ""
  · subst hy; simp [mergeNameOp_empty_right]
  · rw [mergeNameOp_of_ne hx hy]
    split_ifs with h <;> omega

lemma mergeNameOp_choice (x y : String) :
    mergeNameOp x y = x ∨ mergeNameOp x y = y := by
  unfold mergeNameOp
  split_ifs <;> tauto

lemma mergeNameOp_assoc (x y z : String) :
    mergeNameOp (mergeNameOp x y) z = mergeNameOp x (mergeNameOp y z) := by
  by_cases hx : x = ""
  · subst hx; simp [mergeNameOp_empty_left]
  by_cases hy : y = ""
  · subst hy; simp [mergeNameOp_empty_left, mergeNameOp_empty_right]
  by_cases hz : z = ""
  · subst hz; simp [mergeNameOp_empty_right]
  · have hxy : mergeNameOp x y ≠ "" := by
      rcases mergeNameOp_choice x y with h | h <;> rw [h] <;> assumption
    have hyz : mergeNameOp y z ≠ "" := by
      rcases mergeNameOp_choice y z with h | h <;> rw [h] <;> assumption
    rw [mergeNameOp_of_ne hxy hz, mergeNameOp_of_ne hx hyz,
      mergeNameOp_of_ne hx hy, mergeNameOp_of_ne hy hz] at *
    split_ifs <;> first | rfl | (exfalso; omega)

lemma mergeNameOp_comm_of {x y : String}
    (h : x.length ≠ y.length ∨ x = y) : mergeNameOp x y = mergeNameOp y x := by
  rcases h with h | h
  · by_cases hx : x = ""
    · subst hx; rw [mergeNameOp_empty_left, mergeNameOp_empty_right]
    by_cases hy : y = ""
    · subst hy; rw [mergeNameOp_empty_left, mergeNameOp_empty_right]
    · rw [mergeNameOp_of_ne hx hy, mergeNameOp_of_ne hy hx]
      split_ifs <;> first | rfl | (exfalso; omega)
  · subst h; rfl

lemma mergePairedOp_assoc (x y z : Option Bool) :
    mergePairedOp (mergePairedOp x y) z = mergePairedOp x (mergePairedOp y z) := by
  revert x y z; decide

lemma mergePairedOp_comm (x y : Option Bool) :
    mergePairedOp x y = mergePairedOp y x := by
  revert x y; decide

lemma mergePairedOp_true_iff (x y : Option Bool) :
    mergePairedOp x y = some true ↔ x = some true ∨ y = some true := by
  revert x y; decide

lemma mergePairedOp_false (x y : Option Bool)
    (h1 : ¬(x = some true ∨ y = some true))
    (h2 : x = some false ∨ y = some false) :
    mergePairedOp x y = some false := by
  revert h1 h2; revert x y; decide

lemma mergePairedOp_none (x y : Option Bool) (h1 : x = none) (h2 : y = none) :
    mergePairedOp x y = none := by
  subst h1; subst h2; rfl

lemma devKey_eq_iff {a b : DeviceInfo} :
    devKey a = devKey b ↔ a.address = b.address ∧ a.transport = b.transport := by
  simp [devKey, Prod.ext_iff]

lemma merge_ok_of_key_eq {a b : DeviceInfo} (h : devKey a = devKey b) :
    DeviceInfo.merge a b = .ok (a.mergeUnchecked b) := by
  rcases devKey_eq_iff.mp h with ⟨h1, h2⟩
  simp [DeviceInfo.merge, h1, h2]

/-- C8 (amended): within one `(address, transport)` key, `merge` succeeds and
is associative; it keeps the longer non-empty name (the first argument's name
on an equal-length tie, which is the one exception to commutativity) and
resolves `paired` as true > false > unknown; it is commutative whenever the
two names differ in length or are equal. -/
theorem claim_C8_merge_algebra (a b c : DeviceInfo)
    (hab : devKey a = devKey b) (hbc : devKey b = devKey c) :
    DeviceInfo.merge a b = .ok (a.mergeUnchecked b) ∧
    (a.mergeUnchecked b).mergeUnchecked c = a.mergeUnchecked (b.mergeUnchecked c) ∧
    (a.name.length ≠ b.name.length ∨ a.name = b.name →
      DeviceInfo.merge a b = DeviceInfo.merge b a) ∧
    (a.mergeUnchecked b).name.length = max a.name.length b.name.length ∧
    ((a.mergeUnchecked b).name = a.name ∨ (a.mergeUnchecked b).name = b.name) ∧
    ((a.mergeUnchecked b).paired = some true ↔
      a.paired = some true ∨ b.paired = some true) ∧
    (¬(a.paired = some true ∨ b.paired = some true) →
      (a.paired = some false ∨ b.paired = some false) →
      (a.mergeUnchecked b).paired = some false) ∧
    (a.paired = none → b.paired = none → (a.mergeUnchecked b).paired = none) := by
  rcases devKey_eq_iff.mp hab with ⟨haddr, htrans⟩
  refine ⟨merge_ok_of_key_eq hab, ?_, ?_, mergeNameOp_length a.name b.name,
    mergeNameOp_choice a.name b.name, mergePairedOp_true_iff a.paired b.paired,
    mergePairedOp_false a.paired b.paired,
    mergePairedOp_none a.paired b.paired⟩
  · simp [DeviceInfo.mergeUnchecked, mergeNameOp_assoc, mergePairedOp_assoc]
  · intro h
    rw [merge_ok_of_key_eq hab, merge_ok_of_key_eq hab.symm]
    simp [DeviceInfo.mergeUnchecked, mergeNameOp_comm_of h,
      mergePairedOp_comm a.paired b.paired, haddr, htrans]

/-- Witness for C8 (amended) at three concrete records of one key. -/
theorem claim_C8_merge_algebra_witness :
    (DeviceInfo.merge { name := "Print", address := "X", paired := some true }
        { name := "P", address := "X" } =
      .ok (DeviceInfo.mergeUnchecked { name := "Print", address := "X", paired := some true }
        { name := "P", address := "X" })) ∧
    DeviceInfo.merge { name := "Print", address := "X", paired := some true }
        { name := "P", address := "X" } =
      DeviceInfo.merge { name := "P", address := "X" }
        { name := "Print", address := "X", paired := some true } :=
  ⟨(claim_C8_merge_algebra { name := "Print", address := "X", paired := some true }
      { name := "P", address := "X" } { name := "", address := "X" } rfl rfl).1,
    (claim_C8_merge_algebra { name := "Print", address := "X", paired := some true }
      { name := "P", address := "X" } { name := "", address := "X" } rfl rfl).2.2.1
      (by decide)⟩

lemma writeLoop_cons (x : Nat) (rest : List Nat) {cs : Nat} (iv : Nat) (h : cs ≠ 0) :
    writeLoop (x :: rest) cs iv =
      [WriteEvent.acquireLock, .send ((x :: rest).take cs), .releaseLock] ++
      (if iv ≠ 0 then [WriteEvent.sleep iv] else []) ++
      writeLoop ((x :: rest).drop cs) cs iv := by
  rw [writeLoop]
  simp [h]

lemma chunksOf_cons (x : Nat) (rest : List Nat) {cs : Nat} (h : cs ≠ 0) :
    chunksOf (x :: rest) cs =
      (x :: rest).take cs :: chunksOf ((x :: rest).drop cs) cs := by
  rw [chunksOf]
  simp [h]

lemma chunkSizes_zero (cs : Nat) : chunkSizes 0 cs = [] := by
  rw [chunkSizes]

lemma chunkSizes_step (n cs : Nat) (h : cs ≠ 0) :
    chunkSizes (n + 1) cs = min cs (n + 1) :: chunkSizes (n + 1 - cs) cs := by
  rw [chunkSizes]
  simp [h]

lemma writeLoop_nil (cs iv : Nat) : writeLoop [] cs iv = [] := by
  rw [writeLoop]

lemma chunksOf_nil (cs : Nat) : chunksOf [] cs = [] := by
  rw [chunksOf]

lemma sendsOf_nil : sendsOf [] = [] := rfl

lemma sendsOf_append (l1 l2 : List WriteEvent) :
    sendsOf (l1 ++ l2) = sendsOf l1 ++ sendsOf l2 := by
  simp [sendsOf]

lemma sendsOf_block (c : List Nat) :
    sendsOf [WriteEvent.acquireLock, .send c, .releaseLock] = [c] := rfl

lemma sendsOf_sleepOpt (iv : Nat) :
    sendsOf (if iv ≠ 0 then [WriteEvent.sleep iv] else []) = [] := by
  split <;> rfl

lemma sendsLocked_block (c : List Nat) (l : List WriteEvent) :
    sendsLocked (WriteEvent.acquireLock :: WriteEvent.send c ::
      WriteEvent.releaseLock :: l) = sendsLocked l := rfl

lemma sendsLocked_sleep (m : Nat) (l : List WriteEvent) :
    sendsLocked (WriteEvent.sleep m :: l) = sendsLocked l := rfl

lemma sendSleepOnly_append (l1 l2 : List WriteEvent) :
    sendSleepOnly (l1 ++ l2) = sendSleepOnly l1 ++ sendSleepOnly l2 := by
  simp [sendSleepOnly]

lemma sendSleepOnly_block (c : List Nat) :
    sendSleepOnly [WriteEvent.acquireLock, .send c, .releaseLock] =
      [WriteEvent.send c] := rfl

lemma sendSleepOnly_sleepOpt (iv : Nat) (h : iv ≠ 0) :
    sendSleepOnly (if iv ≠ 0 then [WriteEvent.sleep iv] else []) =
      [WriteEvent.sleep iv] := by
  simp [h, sendSleepOnly]

lemma writeLoop_spec (cs iv : Nat) (h : cs ≠ 0) :
    ∀ n (data : List Nat), data.length ≤ n →
      sendsOf (writeLoop data cs iv) = chunksOf data cs ∧
      (chunksOf data cs).flatten = data ∧
      (chunksOf data cs).map List.length = chunkSizes data.length cs ∧
      sendsLocked (writeLoop data cs iv) = true ∧
      (iv ≠ 0 → sendSleepOnly (writeLoop data cs iv) =
        (chunksOf data cs).flatMap
          (fun c => [WriteEvent.send c, WriteEvent.sleep iv])) := by
  intro n
  induction n with
  | zero =>
    intro data hlen
    have : data = [] := List.eq_nil_of_length_eq_zero (Nat.le_zero.mp hlen)
    subst this
    rw [writeLoop_nil, chunksOf_nil]
    exact ⟨rfl, rfl, (chunkSizes_zero cs).symm, rfl, fun _ => rfl⟩
  | succ n ih =>
    intro data hlen
    match data with
    | [] =>
      rw [writeLoop_nil, chunksOf_nil]
      exact ⟨rfl, rfl, (chunkSizes_zero cs).symm, rfl, fun _ => rfl⟩
    | x :: rest =>
      have hdrop : ((x :: rest).drop cs).length ≤ n := by
        simp only [List.length_drop, List.length_cons]
        simp only [List.length_cons] at hlen
        omega
      obtain ⟨ih1, ih2, ih3, ih4, ih5⟩ := ih ((x :: rest).drop cs) hdrop
      rw [writeLoop_cons x rest iv h, chunksOf_cons x rest h]
      refine ⟨?_, ?_, ?_, ?_, ?_⟩
      · rw [sendsOf_append, sendsOf_append, sendsOf_block, sendsOf_sleepOpt, ih1]
        simp
      · rw [List.flatten_cons, ih2, List.take_append_drop]
      · simp only [List.map_cons, List.length_take, List.length_cons]
        rw [chunkSizes_step _ _ h]
        simp only [List.length_drop, List.length_cons] at ih3
        rw [ih3]
      · simp only [List.cons_append, List.nil_append]
        rw [sendsLocked_block]
        rcases Decidable.em (iv = 0) with hiv | hiv
        · subst hiv
          simpa using ih4
        · rw [if_pos hiv, List.cons_append, List.nil_append, sendsLocked_sleep]
          exact ih4
      · intro hiv
        rw [sendSleepOnly_append, sendSleepOnly_append, sendSleepOnly_block,
          sendSleepOnly_sleepOpt iv hiv, ih5 hiv]
        simp

lemma chunkSizes_1000_180 : chunkSizes 1000 180 = [180, 180, 180, 180, 180, 100] := by
  have h : (180 : Nat) ≠ 0 := by norm_num
  rw [show (1000 : Nat) = 999 + 1 from rfl, chunkSizes_step _ _ h]
  norm_num
  rw [show (820 : Nat) = 819 + 1 from rfl, chunkSizes_step _ _ h]
  norm_num
  rw [show (640 : Nat) = 639 + 1 from rfl, chunkSizes_step _ _ h]
  norm_num
  rw [show (460 : Nat) = 459 + 1 from rfl, chunkSizes_step _ _ h]
  norm_num
  rw [show (280 : Nat) = 279 + 1 from rfl, chunkSizes_step _ _ h]
  norm_num
  rw [show (100 : Nat) = 99 + 1 from rfl, chunkSizes_step _ _ h]
  norm_num
  exact chunkSizes_zero 180

/-- C5 counterexample: a 1000-byte payload at `chunk_size = 180` is sent as 6
chunks of sizes `[180,180,180,180,180,100]` — the claimed final chunk of 80
bytes is arithmetically impossible (5·180 + 80 = 980 ≠ 1000). -/
theorem claim_C5_counterexample :
    (sendsOf (writeLoop (List.replicate 1000 0) 180 10)).map List.length =
      [180, 180, 180, 180, 180, 100] ∧
    (sendsOf (writeLoop (List.replicate 1000 0) 180 10)).map List.length ≠
      [180, 180, 180, 180, 180, 80] := by
  have h : (180 : Nat) ≠ 0 := by norm_num
  obtain ⟨h1, _, h3, _, _⟩ :=
    writeLoop_spec 180 10 h (List.replicate 1000 0).length
      (List.replicate 1000 0) le_rfl
  rw [h1, h3, List.length_replicate, chunkSizes_1000_180]
  exact ⟨rfl, by decide⟩

/-- C5 (amended): on a connected backend with a live socket and a positive
chunk size, the write sends exactly the consecutive `chunk_size`-byte slices
of the payload in order (6 chunks of sizes `[180,180,180,180,180,100]` for
1000 bytes at 180), every send sits inside the lock bracket, and a sleep of
`interval_ms` separates every pair of consecutive sends whenever `interval_ms`
is non-zero. -/
theorem claim_C5_write_chunking (st : BackendState) (s : Nat) (data : List Nat)
    (chunk_size interval_ms : Nat) (hs : st.sock = some s)
    (hc : st.connected = true) (hcs : chunk_size ≠ 0) :
    write_blocking st data chunk_size interval_ms =
      (.ok (), writeLoop data chunk_size interval_ms) ∧
    sendsOf (writeLoop data chunk_size interval_ms) = chunksOf data chunk_size ∧
    (chunksOf data chunk_size).flatten = data ∧
    (chunksOf data chunk_size).map List.length = chunkSizes data.length chunk_size ∧
    sendsLocked (writeLoop data chunk_size interval_ms) = true ∧
    (interval_ms ≠ 0 →
      sendSleepOnly (writeLoop data chunk_size interval_ms) =
        (chunksOf data chunk_size).flatMap
          (fun c => [WriteEvent.send c, WriteEvent.sleep interval_ms])) ∧
    chunkSizes 1000 180 = [180, 180, 180, 180, 180, 100] := by
  obtain ⟨h1, h2, h3, h4, h5⟩ :=
    writeLoop_spec chunk_size interval_ms hcs data.length data le_rfl
  refine ⟨?_, h1, h2, h3, h4, h5, chunkSizes_1000_180⟩
  simp [write_blocking, hs, hc]

/-- Witness for C5 (amended): a five-byte payload written in 2-byte chunks
with a 7 ms interval on a connected backend. -/
theorem claim_C5_write_chunking_witness :
    write_blocking
        { sock := some 2, connected := true, channel := some 2, transport := some .classic }
        [1, 2, 3, 4, 5] 2 7 =
      (.ok (), writeLoop [1, 2, 3, 4, 5] 2 7) ∧
    sendsOf (writeLoop [1, 2, 3, 4, 5] 2 7) = chunksOf [1, 2, 3, 4, 5] 2 ∧
    (chunksOf [1, 2, 3, 4, 5] 2).flatten = [1, 2, 3, 4, 5] ∧
    (chunksOf [1, 2, 3, 4, 5] 2).map List.length = chunkSizes 5 2 ∧
    sendsLocked (writeLoop [1, 2, 3, 4, 5] 2 7) = true ∧
    (7 ≠ 0 →
      sendSleepOnly (writeLoop [1, 2, 3, 4, 5] 2 7) =
        (chunksOf [1, 2, 3, 4, 5] 2).flatMap
          (fun c => [WriteEvent.send c, WriteEvent.sleep 7])) ∧
    chunkSizes 1000 180 = [180, 180, 180, 180, 180, 100] :=
  claim_C5_write_chunking
    { sock := some 2, connected := true, channel := some 2, transport := some .classic }
    2 [1, 2, 3, 4, 5] 2 7 rfl rfl (by decide)

lemma find_write_characteristic_true (services : List BleService) :
    find_write_characteristic true services =
      match services.findSome?
          (fun s => s.characteristics.find? (fun c => "write" ∈ c.properties)) with
      | some c => some c
      | none =>
        services.findSome?
          (fun s => s.characteristics.find?
            (fun c => "write-without-response" ∈ c.properties)) := by
  simp [find_write_characteristic]

lemma findChar_some {p : BleCharacteristic → Bool} {services : List BleService}
    {c : BleCharacteristic}
    (h : services.findSome? (fun s => s.characteristics.find? p) = some c) :
    (∃ s ∈ services, c ∈ s.characteristics) ∧ p c = true := by
  obtain ⟨s, hs, hfind⟩ := List.exists_of_findSome?_eq_some h
  exact ⟨⟨s, hs, List.mem_of_find?_eq_some hfind⟩, List.find?_some hfind⟩

lemma findChar_none {p : BleCharacteristic → Bool} {services : List BleService}
    (h : services.findSome? (fun s => s.characteristics.find? p) = none) :
    ∀ s ∈ services, ∀ ch ∈ s.characteristics, ¬ p ch = true := by
  intro s hs ch hch
  have h1 := List.findSome?_eq_none_iff.mp h s hs
  rw [List.find?_eq_none] at h1
  exact h1 ch hch

/-- C7 counterexample: the bleak adapter's discovery is not the claimed
table-first priority search — with a writable characteristic in an unknown
service listed before a Nordic-UART service, the code returns the unknown
service's characteristic while the table-first search would return the NUS TX
characteristic. -/
theorem claim_C7_counterexample :
    find_write_characteristic true
        [{ uuid := "1234", characteristics := [{ uuid := "5678", properties := ["write"] }] },
         { uuid := "6e400001-b5a3-f393-e0a9-e50e24dcca9e",
           characteristics := [{ uuid := "6e400002-b5a3-f393-e0a9-e50e24dcca9e",
                                 properties := ["write"] }] }] =
      some { uuid := "5678", properties := ["write"] } ∧
    find_write_characteristic_spec true
        [{ uuid := "1234", characteristics := [{ uuid := "5678", properties := ["write"] }] },
         { uuid := "6e400001-b5a3-f393-e0a9-e50e24dcca9e",
           characteristics := [{ uuid := "6e400002-b5a3-f393-e0a9-e50e24dcca9e",
                                 properties := ["write"] }] }] =
      some { uuid := "6e400002-b5a3-f393-e0a9-e50e24dcca9e", properties := ["write"] } ∧
    find_write_characteristic true
        [{ uuid := "1234", characteristics := [{ uuid := "5678", properties := ["write"] }] },
         { uuid := "6e400001-b5a3-f393-e0a9-e50e24dcca9e",
           characteristics := [{ uuid := "6e400002-b5a3-f393-e0a9-e50e24dcca9e",
                                 properties := ["write"] }] }] ≠
      find_write_characteristic_spec true
        [{ uuid := "1234", characteristics := [{ uuid := "5678", properties := ["write"] }] },
         { uuid := "6e400001-b5a3-f393-e0a9-e50e24dcca9e",
           characteristics := [{ uuid := "6e400002-b5a3-f393-e0a9-e50e24dcca9e",
                                 properties := ["write"] }] }] := by
  refine ⟨by decide, by decide, ?_⟩
  intro h
  rw [show find_write_characteristic true
        [{ uuid := "1234", characteristics := [{ uuid := "5678", properties := ["write"] }] },
         { uuid := "6e400001-b5a3-f393-e0a9-e50e24dcca9e",
           characteristics := [{ uuid := "6e400002-b5a3-f393-e0a9-e50e24dcca9e",
                                 properties := ["write"] }] }] =
      some { uuid := "5678", properties := ["write"] } from by decide] at h
  rw [show find_write_characteristic_spec true
        [{ uuid := "1234", characteristics := [{ uuid := "5678", properties := ["write"] }] },
         { uuid := "6e400001-b5a3-f393-e0a9-e50e24dcca9e",
           characteristics := [{ uuid := "6e400002-b5a3-f393-e0a9-e50e24dcca9e",
                                 properties := ["write"] }] }] =
      some { uuid := "6e400002-b5a3-f393-e0a9-e50e24dcca9e", properties := ["write"] }
      from by decide] at h
  exact absurd (Option.some.inj h) (by decide)

/-- C7 (amended): after a BLE GATT connection, the bleak adapter discovers the
writable characteristic by scanning all services in order for a characteristic
with the `write` property, and only failing that for one with
`write-without-response` (so write-with-response is preferred); no known-UUID
table is consulted; when no writable characteristic exists, the connect step
fails with a hard error naming the device. -/
theorem claim_C7_write_char_search (address : String) (services : List BleService) :
    (∀ c, find_write_characteristic true services = some c →
      (∃ s ∈ services, c ∈ s.characteristics) ∧
        ("write" ∈ c.properties ∨ "write-without-response" ∈ c.properties)) ∧
    ((∃ s ∈ services, ∃ ch ∈ s.characteristics, "write" ∈ ch.properties) →
      ∀ c, find_write_characteristic true services = some c →
        "write" ∈ c.properties) ∧
    (find_write_characteristic true services = none ↔
      ∀ s ∈ services, ∀ ch ∈ s.characteristics,
        "write" ∉ ch.properties ∧ "write-without-response" ∉ ch.properties) ∧
    (find_write_characteristic true services = none →
      ∃ e, connect_find_write_step address true services = .error e ∧
        strContains e address) := by
  refine ⟨?_, ?_, ?_, ?_⟩
  · intro c hc
    rw [find_write_characteristic_true] at hc
    rcases h1 : services.findSome?
        (fun s => s.characteristics.find? (fun c => "write" ∈ c.properties)) with _ | c'
    · rw [h1] at hc
      obtain ⟨hmem, hp⟩ := findChar_some hc
      exact ⟨hmem, Or.inr (by simpa using hp)⟩
    · rw [h1] at hc
      have hcc : c' = c := by simpa using hc
      subst hcc
      obtain ⟨hmem, hp⟩ := findChar_some h1
      exact ⟨hmem, Or.inl (by simpa using hp)⟩
  · intro hex c hc
    rw [find_write_characteristic_true] at hc
    rcases h1 : services.findSome?
        (fun s => s.characteristics.find? (fun c => "write" ∈ c.properties)) with _ | c'
    · exfalso
      obtain ⟨s, hs, ch, hch, hw⟩ := hex
      exact findChar_none h1 s hs ch hch (by simpa using hw)
    · rw [h1] at hc
      obtain ⟨_, hp⟩ := findChar_some h1
      have : c' = c := Option.some.inj hc
      subst this
      simpa using hp
  · rw [find_write_characteristic_true]
    constructor
    · intro h s hs ch hch
      rcases h1 : services.findSome?
          (fun s => s.characteristics.find? (fun c => "write" ∈ c.properties)) with _ | c'
      · rw [h1] at h
        exact ⟨by simpa using findChar_none h1 s hs ch hch,
          by simpa using findChar_none h s hs ch hch⟩
      · rw [h1] at h
        exact absurd h (by simp)
    · intro hall
      have h1 : services.findSome?
          (fun s => s.characteristics.find? (fun c => "write" ∈ c.properties)) = none := by
        rw [List.findSome?_eq_none_iff]
        intro s hs
        rw [List.find?_eq_none]
        intro ch hch
        simpa using (hall s hs ch hch).1
      have h2 : services.findSome?
          (fun s => s.characteristics.find?
            (fun c => "write-without-response" ∈ c.properties)) = none := by
        rw [List.findSome?_eq_none_iff]
        intro s hs
        rw [List.find?_eq_none]
        intro ch hch
        simpa using (hall s hs ch hch).2
      rw [h1, h2]
  · intro h
    refine ⟨_, by rw [connect_find_write_step, h], ?_⟩
    exact ⟨"Could not find a writable GATT characteristic on device ".data,
      ". The device may not support BLE printing, or uses unknown UUIDs.".data,
      by simp [String.data_append]⟩

lemma strContains_data_congr {hay x y : String} (hxy : x.data = y.data)
    (h : strContains hay x) : strContains hay y := by
  obtain ⟨p, q, hh⟩ := h
  exact ⟨p, q, by rw [hh, hxy]⟩

lemma intercalate_go_data_prefix (s : String) :
    ∀ (parts : List String) (acc : String),
      ∃ tail, (String.intercalate.go acc s parts).data = acc.data ++ tail := by
  intro parts
  induction parts with
  | nil => intro acc; exact ⟨[], by simp [String.intercalate.go]⟩
  | cons b bs ih =>
    intro acc
    obtain ⟨t, ht⟩ := ih (acc ++ s ++ b)
    refine ⟨s.data ++ b.data ++ t, ?_⟩
    rw [show String.intercalate.go acc s (b :: bs) =
      String.intercalate.go (acc ++ s ++ b) s bs from rfl, ht]
    simp [String.data_append]

lemma intercalate_go_contains (s : String) :
    ∀ (parts : List String) (acc x : String), x ∈ parts →
      ∃ pre post, (String.intercalate.go acc s parts).data = pre ++ x.data ++ post := by
  intro parts
  induction parts with
  | nil => intro acc x hx; simp at hx
  | cons b bs ih =>
    intro acc x hx
    rw [show String.intercalate.go acc s (b :: bs) =
      String.intercalate.go (acc ++ s ++ b) s bs from rfl]
    rcases List.mem_cons.mp hx with h | h
    · subst h
      obtain ⟨t, ht⟩ := intercalate_go_data_prefix s bs (acc ++ s ++ x)
      exact ⟨acc.data ++ s.data, t, by rw [ht]; simp [String.data_append]⟩
    · exact ih (acc ++ s ++ b) x h

lemma strContains_scanParts (A B s x : String) (parts : List String) (hx : x ∈ parts) :
    strContains (A ++ String.intercalate s parts ++ B) x := by
  rcases parts with _ | ⟨a, as⟩
  · simp at hx
  · rw [show String.intercalate s (a :: as) = String.intercalate.go a s as from rfl]
    rcases List.mem_cons.mp hx with h | h
    · subst h
      obtain ⟨t, ht⟩ := intercalate_go_data_prefix s as x
      exact ⟨A.data, t ++ B.data, by simp [String.data_append, ht, List.append_assoc]⟩
    · obtain ⟨pre, post, hp⟩ := intercalate_go_contains s as a x h
      exact ⟨A.data ++ pre, post ++ B.data,
        by simp [String.data_append, hp, List.append_assoc]⟩

lemma dedupe_singleton (d : DeviceInfo) : DeviceInfo.dedupe [d] = [d] := by
  simp [DeviceInfo.dedupe, dedupeAux, upsert, List.mergeSort_singleton]

/-- C2 counterexample: with the classic scan attempted and succeeding with no
devices while the BLE scan returns one device, the call returns that device —
not the empty device list the claim's second half asserts for "at least one
attempted transport returned no error but also no devices". -/
theorem claim_C2_counterexample :
    outcomeEmptyOk (AdapterOutcome.ok ([] : List DeviceInfo)) = true ∧
    scan_blocking true true (.ok []) (.ok [{ name := "P", address := "AA", transport := .ble }]) =
      .ok ([{ name := "P", address := "AA", transport := .ble }], []) ∧
    ([{ name := "P", address := "AA", transport := .ble }] : List DeviceInfo) ≠ [] := by
  refine ⟨rfl, ?_, by simp⟩
  have h := dedupe_singleton { name := "P", address := "AA", transport := .ble }
  simp [scan_blocking, outcomeDevices, outcomeFailure, h]

set_option maxHeartbeats 2000000 in
/-- C2 (amended): with at least one transport attempted, the scan raises iff
every attempted transport failed, and the raised text names each failed
transport with its cause; when no attempted transport returned devices and at
least one attempted transport returned no error (merely no devices), the call
returns an empty device list with the accumulated failure list instead of
raising. -/
theorem claim_C2_scan_failure_aggregation (ic ib : Bool)
    (classic ble : AdapterOutcome) (h : ic = true ∨ ib = true) :
    ((∃ e, scan_blocking ic ib classic ble = .error e) ↔
      ((ic = true → outcomeFailed classic = true) ∧
        (ib = true → outcomeFailed ble = true))) ∧
    (∀ e, scan_blocking ic ib classic ble = .error e →
      (ic = true → strContains e
        (failureText ⟨.classic, outcomeCause "Classic Bluetooth not supported" classic⟩)) ∧
      (ib = true → strContains e
        (failureText ⟨.ble, outcomeCause "BLE Bluetooth not supported" ble⟩))) ∧
    ((ic = true ∧ outcomeEmptyOk classic = true) ∨
        (ib = true ∧ outcomeEmptyOk ble = true) →
      outcomeDevices ic classic = [] → outcomeDevices ib ble = [] →
      scan_blocking ic ib classic ble =
        .ok ([],
          (match outcomeFailure ic "Classic Bluetooth not supported" classic with
            | some e => [ScanFailure.mk .classic e]
            | none => []) ++
          (match outcomeFailure ib "BLE Bluetooth not supported" ble with
            | some e => [ScanFailure.mk .ble e]
            | none => []))) := by
  cases ic <;> cases ib
  · simp at h
  all_goals (
    rcases classic with _ | cds | cm <;>
    rcases ble with _ | bds | bm <;>
    (try rcases cds with _ | ⟨cd, cds⟩) <;>
    (try rcases bds with _ | ⟨bd, bds⟩))
  all_goals refine ⟨?_, fun e he => ?_, fun h1 h2 h3 => ?_⟩
  any_goals (simp [scan_blocking, outcomeDevices, outcomeFailure, outcomeFailed]; done)
  any_goals (simp [scan_blocking, outcomeDevices, outcomeFailure] at he; done)
  any_goals (simp [outcomeEmptyOk] at h1; done)
  any_goals (simp [outcomeDevices] at h2; done)
  any_goals (simp [outcomeDevices] at h3; done)
  all_goals simp [scan_blocking, outcomeDevices, outcomeFailure] at he
  all_goals subst he
  all_goals (refine ⟨fun hc => ?_, fun hb => ?_⟩ <;>
      simp only [outcomeCause] <;>
      first
        | exact absurd hc (by decide)
        | exact absurd hb (by decide)
        | exact strContains_scanParts _ _ _ _ _ (by simp))

/-- Witness for C2 (amended): both transports attempted, both scans raising —
the call raises and the text names both transports with both causes. -/
theorem claim_C2_scan_failure_aggregation_witness :
    ∃ e, scan_blocking true true (.err "classic down") (.err "ble down") = .error e ∧
      strContains e (failureText
        ⟨.classic, outcomeCause "Classic Bluetooth not supported" (.err "classic down")⟩) ∧
      strContains e (failureText
        ⟨.ble, outcomeCause "BLE Bluetooth not supported" (.err "ble down")⟩) := by
  obtain ⟨hiff, hmsg, _⟩ := claim_C2_scan_failure_aggregation true true
    (.err "classic down") (.err "ble down") (Or.inl rfl)
  obtain ⟨e, he⟩ := hiff.mpr ⟨fun _ => rfl, fun _ => rfl⟩
  obtain ⟨c1, c2⟩ := hmsg e he
  exact ⟨e, he, c1 rfl, c2 rfl⟩

lemma resolve_channels_ne_nil (s : Bool) (r : Option Nat) :
    resolve_rfcomm_channels s r ≠ [] := by
  rcases r with _ | c <;> simp only [resolve_rfcomm_channels] <;>
    split <;> simp [RFCOMM_CHANNELS]

lemma connectLoop_indep (outcome : Nat → ConnectOutcome) :
    ∀ (chans : List Nat) (l1 l2 : Option (Bool × String)),
      (connectLoop outcome chans l1).1 = (connectLoop outcome chans l2).1 ∧
      (connectLoop outcome chans l1).2.2 = (connectLoop outcome chans l2).2.2 := by
  intro chans
  induction chans with
  | nil => intro l1 l2; exact ⟨rfl, rfl⟩
  | cons c rest ih =>
    intro l1 l2
    simp only [connectLoop]
    rcases outcome c with _ | ⟨t, m⟩
    · exact ⟨rfl, rfl⟩
    · obtain ⟨h1, h2⟩ := ih (some (t, m)) (some (t, m))
      simp [h1, h2]

lemma connectLoop_some_of_ok (outcome : Nat → ConnectOutcome) :
    ∀ (chans : List Nat) (le : Option (Bool × String)) (c : Nat),
      c ∈ chans → outcome c = .ok →
      ∃ w, (connectLoop outcome chans le).1 = some w := by
  intro chans
  induction chans with
  | nil => intro le c hc; simp at hc
  | cons d rest ih =>
    intro le c hc hok
    simp only [connectLoop]
    rcases hd : outcome d with _ | ⟨t, m⟩
    · exact ⟨d, rfl⟩
    · rcases List.mem_cons.mp hc with h | h
      · subst h; rw [hok] at hd; exact absurd hd (by simp)
      · obtain ⟨w, hw⟩ := ih (some (t, m)) c h hok
        exact ⟨w, hw⟩

lemma connectLoop_none_of_all_err (outcome : Nat → ConnectOutcome) :
    ∀ (chans : List Nat) (le : Option (Bool × String)),
      (∀ c ∈ chans, outcome c ≠ .ok) →
      (connectLoop outcome chans le).1 = none ∧
      (chans = [] → (connectLoop outcome chans le).2.1 = le) ∧
      (chans ≠ [] → ∃ t m, (connectLoop outcome chans le).2.1 = some (t, m)) := by
  intro chans
  induction chans with
  | nil => intro le _; exact ⟨rfl, fun _ => rfl, fun h => absurd rfl h⟩
  | cons d rest ih =>
    intro le hall
    simp only [connectLoop]
    rcases hd : outcome d with _ | ⟨t, m⟩
    · exact absurd hd (hall d (List.mem_cons_self d rest))
    · obtain ⟨h1, h2, h3⟩ := ih (some (t, m))
        (fun c hc => hall c (List.mem_cons_of_mem d hc))
      refine ⟨h1, fun h => by simp at h, fun _ => ?_⟩
      rcases Decidable.em (rest = []) with hr | hr
      · exact ⟨t, m, by rw [h2 hr]⟩
      · exact h3 hr

lemma attemptsOf_pair_cons (l : List ConnectEvent) :
    attemptsOf (ConnectEvent.pairAttempt :: l) = attemptsOf l := rfl

lemma connectLoop_attempts (outcome : Nat → ConnectOutcome) :
    ∀ (chans : List Nat) (le : Option (Bool × String)),
      attemptsOf (connectLoop outcome chans le).2.2 = triedChannels outcome chans := by
  intro chans
  induction chans with
  | nil => intro le; rfl
  | cons d rest ih =>
    intro le
    simp only [connectLoop, triedChannels]
    rcases hd : outcome d with _ | ⟨t, m⟩
    · rfl
    · simp only [attemptsOf, List.filterMap_cons]
      simpa [attemptsOf] using ih (some (t, m))

/-- C3: a pairing failure never by itself aborts a connect: the channel loop
runs exactly as if pairing had succeeded, a successful socket connect returns
without surfacing the pairing error, and only when every channel fails does
the raised message carry the pairing error. -/
theorem claim_C3_pairing_nonfatal (st : BackendState) (device : DeviceInfo)
    (a : AdapterModel) (p : String)
    (hconn : st.connected = false) (hpair : a.ensurePaired = .error p) :
    ((connect_blocking st device (some a)).2.2 =
      (connect_blocking st device (some { a with ensurePaired := .ok () })).2.2) ∧
    (((connect_blocking st device (some a)).1 = .ok ()) ↔
      ((connect_blocking st device (some { a with ensurePaired := .ok () })).1 = .ok ())) ∧
    (attemptsOf (connect_blocking st device (some a)).2.2 =
      triedChannels a.connectOutcome
        (resolve_rfcomm_channels a.singleChannel a.resolvedChannel)) ∧
    ((∃ c ∈ resolve_rfcomm_channels a.singleChannel a.resolvedChannel,
        a.connectOutcome c = .ok) →
      (connect_blocking st device (some a)).1 = .ok ()) ∧
    ((∀ c ∈ resolve_rfcomm_channels a.singleChannel a.resolvedChannel,
        a.connectOutcome c ≠ .ok) →
      ∃ e, (connect_blocking st device (some a)).1 = .error e ∧ strContains e p) := by
  have hattempts := connectLoop_attempts a.connectOutcome
    (resolve_rfcomm_channels a.singleChannel a.resolvedChannel) none
  have hchans := resolve_channels_ne_nil a.singleChannel a.resolvedChannel
  simp only [connect_blocking, hconn, hpair, Bool.false_eq_true, if_false]
  rcases hres : (connectLoop a.connectOutcome
      (resolve_rfcomm_channels a.singleChannel a.resolvedChannel) none).1 with _ | c
  · rcases hle : (connectLoop a.connectOutcome
        (resolve_rfcomm_channels a.singleChannel a.resolvedChannel) none).2.1 with _ | ⟨t, m⟩
    · exfalso
      obtain ⟨_, _, h3⟩ := connectLoop_none_of_all_err a.connectOutcome
        (resolve_rfcomm_channels a.singleChannel a.resolvedChannel) none
        (fun c hc hok => by
          obtain ⟨w, hw⟩ := connectLoop_some_of_ok a.connectOutcome
            (resolve_rfcomm_channels a.singleChannel a.resolvedChannel) none c hc hok
          rw [hres] at hw
          exact absurd hw (by simp))
      obtain ⟨t, m, htm⟩ := h3 hchans
      rw [hle] at htm
      exact absurd htm (by simp)
    · rcases t
      · refine ⟨rfl, by simp, ?_, ?_, ?_⟩
        · rw [attemptsOf_pair_cons, hattempts]
        · rintro ⟨c, hc, hok⟩
          obtain ⟨w, hw⟩ := connectLoop_some_of_ok a.connectOutcome
            (resolve_rfcomm_channels a.singleChannel a.resolvedChannel) none c hc hok
          rw [hres] at hw
          exact absurd hw (by simp)
        · intro _
          refine ⟨_, rfl, "Bluetooth connection failed (".data ++ "channels tried: ".data ++
              (channelsText (resolve_rfcomm_channels a.singleChannel a.resolvedChannel)).data ++
              ", pairing failed: ".data,
            ", last error: ".data ++ m.data ++ ")".data, ?_⟩
          simp [String.data_append, List.append_assoc]
      · refine ⟨rfl, by simp, ?_, ?_, ?_⟩
        · rw [attemptsOf_pair_cons, hattempts]
        · rintro ⟨c, hc, hok⟩
          obtain ⟨w, hw⟩ := connectLoop_some_of_ok a.connectOutcome
            (resolve_rfcomm_channels a.singleChannel a.resolvedChannel) none c hc hok
          rw [hres] at hw
          exact absurd hw (by simp)
        · intro _
          refine ⟨_, rfl,
            "Bluetooth connection timed out. Pairing attempt failed: ".data,
            ". Tried RFCOMM channels: ".data ++
              (channelsText (resolve_rfcomm_channels a.singleChannel a.resolvedChannel)).data ++
              ".".data, ?_⟩
          simp [String.data_append, List.append_assoc]
  · refine ⟨rfl, by simp, ?_, fun _ => rfl, ?_⟩
    · rw [attemptsOf_pair_cons, hattempts]
    · intro hall
      obtain ⟨h1, _, _⟩ := connectLoop_none_of_all_err a.connectOutcome
        (resolve_rfcomm_channels a.singleChannel a.resolvedChannel) none hall
      rw [hres] at h1
      exact absurd h1 (by simp)

/-- Witness for C3: pairing fails, channel 1 is refused, channel 2 connects —
the connect succeeds and the pairing error is not surfaced. -/
theorem claim_C3_pairing_nonfatal_witness :
    (connect_blocking { } { name := "P", address := "AA" }
      (some { ensurePaired := .error "pair boom", resolvedChannel := none,
              singleChannel := false,
              connectOutcome := fun c =>
                if c = 2 then .ok else .err false "refused" })).1 = .ok () := by
  have h := claim_C3_pairing_nonfatal { } { name := "P", address := "AA" }
    { ensurePaired := .error "pair boom", resolvedChannel := none,
      singleChannel := false,
      connectOutcome := fun c => if c = 2 then .ok else .err false "refused" }
    "pair boom" rfl rfl
  exact h.2.2.2.1 ⟨2, by decide, by decide⟩

/-- Witness for C7 (amended): a device exposing only a non-writable
characteristic makes the connect step fail with an error naming the device. -/
theorem claim_C7_write_char_search_witness :
    ∃ e, connect_find_write_step "AA:BB:CC" true
        [{ uuid := "s1", characteristics := [{ uuid := "c1", properties := ["read"] }] }] =
      .error e ∧ strContains e "AA:BB:CC" :=
  (claim_C7_write_char_search "AA:BB:CC"
    [{ uuid := "s1", characteristics := [{ uuid := "c1", properties := ["read"] }] }]).2.2.2
    (by decide)

lemma detect_from_alias_none {reg : PrinterModelRegistry} {name : String}
    {address : Option String} (h0 : reg.aliases.resolve name address = none) :
    reg.detect_from_alias name address = none := by
  unfold PrinterModelRegistry.detect_from_alias
  rw [h0]

lemma detect_from_alias_some {reg : PrinterModelRegistry} {name : String}
    {address : Option String} {am : PrinterModelAliasMatch}
    (h0 : reg.aliases.resolve name address = some am) :
    reg.detect_from_alias name address =
      (match reg.get_by_head_name am.target_head_name with
        | none => none
        | some m => some ⟨m, .alias, some am.kind⟩) := by
  unfold PrinterModelRegistry.detect_from_alias
  rw [h0]

lemma selectMaxStep_eq {α : Type} (cond : α → Bool) (weight : α → Nat)
    (acc : Option α) (x : α) :
    selectMaxStep cond weight acc x = acc ∨
      (selectMaxStep cond weight acc x = some x ∧ cond x = true) := by
  unfold selectMaxStep
  by_cases hc : cond x
  · rcases acc with _ | m
    · exact Or.inr ⟨by simp [hc], hc⟩
    · by_cases hw : weight m < weight x
      · exact Or.inr ⟨by simp [hc, hw], hc⟩
      · exact Or.inl (by simp [hc, hw])
  · exact Or.inl (by simp [hc])

lemma selectMax_fold_origin {α : Type} (cond : α → Bool) (weight : α → Nat)
    (R : α → Prop) :
    ∀ (l : List α) (acc : Option α),
      (∀ x, acc = some x → R x) → (∀ x ∈ l, cond x = true → R x) →
      ∀ m, l.foldl (selectMaxStep cond weight) acc = some m → R m := by
  intro l
  induction l with
  | nil => intro acc hacc _ m hm; exact hacc m hm
  | cons y ys ih =>
    intro acc hacc hl m hm
    simp only [List.foldl_cons] at hm
    refine ih (selectMaxStep cond weight acc y) ?_
      (fun x hx hc => hl x (List.mem_cons_of_mem y hx) hc) m hm
    intro x hx
    rcases selectMaxStep_eq cond weight acc y with h | ⟨h, hcy⟩
    · exact hacc x (h ▸ hx)
    · rw [h] at hx
      exact (Option.some.inj hx) ▸ hl y (List.mem_cons_self y ys) hcy

lemma selectMax_fold_mono {α : Type} (cond : α → Bool) (weight : α → Nat) :
    ∀ (l : List α) (acc : Option α) (x m : α), acc = some x →
      l.foldl (selectMaxStep cond weight) acc = some m → weight x ≤ weight m := by
  intro l
  induction l with
  | nil =>
    intro acc x m hacc hm
    rw [hacc] at hm
    simp only [List.foldl_nil] at hm
    rw [Option.some.inj hm]
  | cons y ys ih =>
    intro acc x m hacc hm
    simp only [List.foldl_cons] at hm
    subst hacc
    by_cases hc : cond y
    · simp only [selectMaxStep, hc, if_true] at hm
      by_cases hw : weight x < weight y
      · rw [if_pos hw] at hm
        exact le_trans (le_of_lt hw) (ih (some y) y m rfl hm)
      · rw [if_neg hw] at hm
        exact ih (some x) x m rfl hm
    · simp only [selectMaxStep, hc, Bool.false_eq_true, if_false] at hm
      exact ih (some x) x m rfl hm

lemma selectMax_fold_max {α : Type} (cond : α → Bool) (weight : α → Nat) :
    ∀ (l : List α) (acc : Option α) (m : α),
      l.foldl (selectMaxStep cond weight) acc = some m →
      ∀ x ∈ l, cond x = true → weight x ≤ weight m := by
  intro l
  induction l with
  | nil => intro acc m _ x hx; simp at hx
  | cons y ys ih =>
    intro acc m hm x hx hcx
    simp only [List.foldl_cons] at hm
    rcases List.mem_cons.mp hx with h | h
    · subst h
      rcases acc with _ | z
      · simp only [selectMaxStep, hcx, if_true] at hm
        exact selectMax_fold_mono cond weight ys (some x) x m rfl hm
      · simp only [selectMaxStep, hcx, if_true] at hm
        by_cases hw : weight z < weight x
        · rw [if_pos hw] at hm
          exact selectMax_fold_mono cond weight ys (some x) x m rfl hm
        · rw [if_neg hw] at hm
          exact le_trans (Nat.le_of_not_lt hw)
            (selectMax_fold_mono cond weight ys (some z) z m rfl hm)
    · exact ih (selectMaxStep cond weight acc y) m hm x h hcx

lemma selectMaxStep_none_iff {α : Type} (cond : α → Bool) (weight : α → Nat)
    (acc : Option α) (x : α) :
    selectMaxStep cond weight acc x = none ↔ acc = none ∧ cond x = false := by
  unfold selectMaxStep
  by_cases hc : cond x
  · rcases acc with _ | m
    · simp [hc]
    · by_cases hw : weight m < weight x <;> simp [hc, hw]
  · simp [hc]

lemma selectMax_fold_none {α : Type} (cond : α → Bool) (weight : α → Nat) :
    ∀ (l : List α) (acc : Option α),
      l.foldl (selectMaxStep cond weight) acc = none ↔
        acc = none ∧ ∀ x ∈ l, cond x = false := by
  intro l
  induction l with
  | nil => intro acc; simp
  | cons y ys ih =>
    intro acc
    simp only [List.foldl_cons]
    rw [ih (selectMaxStep cond weight acc y)]
    rw [selectMaxStep_none_iff]
    constructor
    · rintro ⟨⟨h1, h2⟩, h3⟩
      exact ⟨h1, fun x hx => by
        rcases List.mem_cons.mp hx with h | h
        · exact h ▸ h2
        · exact h3 x h⟩
    · rintro ⟨h1, h2⟩
      exact ⟨⟨h1, h2 y (List.mem_cons_self y ys)⟩,
        fun x hx => h2 x (List.mem_cons_of_mem y hx)⟩

/-- C6: `detect_with_origin` tries the head-name stage, then the model-number
stage, then the alias stage, in that order; each stage picks the longest
matching prefix (first wins ties); the match's source records the stage and
`used_alias` holds exactly for the alias stage; alias resolution takes the
longest-prefix head alias, overridden by the first matching MAC-suffix alias;
when no stage matches, no model is returned. -/
theorem claim_C6_detect_with_origin (reg : PrinterModelRegistry) (name : String)
    (address : Option String) (hname : name ≠ "") :
    (∀ m, headNameStage reg.models (strToLower name) = some m →
      reg.detect_with_origin name address = some ⟨m, .headName, none⟩) ∧
    (headNameStage reg.models (strToLower name) = none →
      ∀ m, modelNoStage reg.models (strToLower name) = some m →
      reg.detect_with_origin name address = some ⟨m, .modelNo, none⟩) ∧
    (headNameStage reg.models (strToLower name) = none →
      modelNoStage reg.models (strToLower name) = none →
      reg.detect_with_origin name address = reg.detect_from_alias name address) ∧
    (reg.detect_with_origin name address = none ↔
      (headNameStage reg.models (strToLower name) = none ∧
        modelNoStage reg.models (strToLower name) = none ∧
        reg.detect_from_alias name address = none)) ∧
    (∀ mt, reg.detect_with_origin name address = some mt →
      (mt.usedAlias = true ↔ mt.source = .alias)) ∧
    (∀ mt, reg.detect_from_alias name address = some mt → mt.source = .alias) ∧
    (∀ m, headNameStage reg.models (strToLower name) = some m →
      m ∈ reg.models ∧ m.head_name ≠ "" ∧
      strStartsWith (strToLower name) (strToLower m.head_name) = true ∧
      ∀ m' ∈ reg.models, m'.head_name ≠ "" →
        strStartsWith (strToLower name) (strToLower m'.head_name) = true →
        m'.head_name.length ≤ m.head_name.length) ∧
    (headNameStage reg.models (strToLower name) = none ↔
      ∀ m ∈ reg.models,
        ¬(m.head_name ≠ "" ∧ strStartsWith (strToLower name) (strToLower m.head_name) = true)) ∧
    (∀ m, modelNoStage reg.models (strToLower name) = some m →
      m ∈ reg.models ∧ strStartsWith (strToLower name) (strToLower m.model_no) = true ∧
      ∀ m' ∈ reg.models, strStartsWith (strToLower name) (strToLower m'.model_no) = true →
        m'.model_no.length ≤ m.model_no.length) ∧
    (∀ am, reg.aliases.resolve name address = some am →
      ∃ ha ∈ reg.aliases.headAliases,
        0 < ha.matchLength (normalize_alias_name name) ∧
        (∀ ha' ∈ reg.aliases.headAliases,
          ha'.matchLength (normalize_alias_name name) ≤
            ha.matchLength (normalize_alias_name name)) ∧
        (match reg.aliases.macAliases.find? (fun ma => ma.matches address) with
          | some ma => am = ⟨ma.map_model_head_name, .mac⟩
          | none => am = ⟨ha.map_model_head_name, .headName⟩)) := by
  refine ⟨?_, ?_, ?_, ?_, ?_, ?_, ?_, ?_, ?_, ?_⟩
  · intro m hm
    simp [PrinterModelRegistry.detect_with_origin, hname, hm]
  · intro h0 m hm
    simp [PrinterModelRegistry.detect_with_origin, hname, h0, hm]
  · intro h0 h1
    simp [PrinterModelRegistry.detect_with_origin, hname, h0, h1]
  · rcases h0 : headNameStage reg.models (strToLower name) with _ | m
    · rcases h1 : modelNoStage reg.models (strToLower name) with _ | m
      · simp [PrinterModelRegistry.detect_with_origin, hname, h0, h1]
      · simp [PrinterModelRegistry.detect_with_origin, hname, h0, h1]
    · simp [PrinterModelRegistry.detect_with_origin, hname, h0]
  · intro mt _
    rcases hs : mt.source <;>
      simp [PrinterModelMatch.usedAlias, hs]
  · intro mt hmt
    rcases h0 : reg.aliases.resolve name address with _ | am
    · rw [detect_from_alias_none h0] at hmt
      exact absurd hmt (by simp)
    · rw [detect_from_alias_some h0] at hmt
      rcases h1 : reg.get_by_head_name am.target_head_name with _ | m <;> rw [h1] at hmt
      · exact absurd hmt (by simp)
      · have h2 : PrinterModelMatch.mk m .alias (some am.kind) = mt := Option.some.inj hmt
        subst h2
        rfl
  · intro m hm
    rw [headNameStage, selectMax] at hm
    have horigin := selectMax_fold_origin
      (fun m => decide (m.head_name ≠ "" ∧ strStartsWith (strToLower name) (strToLower m.head_name) = true))
      (fun m => m.head_name.length)
      (fun x => x ∈ reg.models ∧ x.head_name ≠ "" ∧
        strStartsWith (strToLower name) (strToLower x.head_name) = true)
      reg.models none (by simp)
      (fun x hx hc => ⟨hx, by simpa using hc⟩) m hm
    refine ⟨horigin.1, horigin.2.1, horigin.2.2, ?_⟩
    intro m' hm' hne hpre
    exact selectMax_fold_max _ _ reg.models none m hm m' hm' (by simp [hne, hpre])
  · rw [headNameStage, selectMax, selectMax_fold_none]
    simp
  · intro m hm
    rw [modelNoStage, selectMax] at hm
    have horigin := selectMax_fold_origin
      (fun m => strStartsWith (strToLower name) (strToLower m.model_no))
      (fun m => m.model_no.length)
      (fun x => x ∈ reg.models ∧ strStartsWith (strToLower name) (strToLower x.model_no) = true)
      reg.models none (by simp)
      (fun x hx hc => ⟨hx, hc⟩) m hm
    refine ⟨horigin.1, horigin.2, ?_⟩
    intro m' hm' hpre
    exact selectMax_fold_max _ _ reg.models none m hm m' hm' hpre
  · intro am ham
    unfold PrinterModelAliasRegistry.resolve at ham
    by_cases hhe : reg.aliases.headAliases = []
    · simp [hhe] at ham
    · rw [if_neg (by simp [hname, hhe])] at ham
      simp only [] at ham
      rcases hsel : selectMax
          (fun a => decide (0 < a.matchLength (normalize_alias_name name)))
          (fun a => a.matchLength (normalize_alias_name name))
          reg.aliases.headAliases with _ | ha
      · rw [hsel] at ham; exact absurd ham (by simp)
      · rw [hsel] at ham
        rw [selectMax] at hsel
        have horigin := selectMax_fold_origin
          (fun a => decide (0 < a.matchLength (normalize_alias_name name)))
          (fun a => a.matchLength (normalize_alias_name name))
          (fun x => x ∈ reg.aliases.headAliases ∧
            0 < x.matchLength (normalize_alias_name name))
          reg.aliases.headAliases none (by simp)
          (fun x hx hc => ⟨hx, by simpa using hc⟩) ha hsel
        refine ⟨ha, horigin.1, horigin.2, ?_, ?_⟩
        · intro ha' hha'
          by_cases hc : 0 < ha'.matchLength (normalize_alias_name name)
          · exact selectMax_fold_max _ _ reg.aliases.headAliases none ha hsel ha' hha'
              (by simpa using hc)
          · omega
        · have ham2 : (match reg.aliases.macAliases.find? (fun ma => ma.matches address) with
              | some ma => some (PrinterModelAliasMatch.mk ma.map_model_head_name
                  PrinterModelAliasKind.mac)
              | none => some (PrinterModelAliasMatch.mk ha.map_model_head_name
                  PrinterModelAliasKind.headName)) = some am := ham
          rcases hfind : reg.aliases.macAliases.find? (fun ma => ma.matches address)
            with _ | ma <;> rw [hfind] at ham2 ⊢ <;>
            exact (Option.some.inj ham2).symm

/-- Witness for C6: the spec's alias-override example — a head-name alias
`"XYZ" → "M1"` and a MAC alias `"AA:BB" → "M2"`; the device `"XYZPrinter"` at
a matching address resolves to `M2` (MAC override), at a non-matching address
to `M1`, via the alias stage in both cases. -/
theorem claim_C6_detect_with_origin_witness :
    (PrinterModelRegistry.mk [mkTestModel "M1" "NO1", mkTestModel "M2" "NO2"]
        (PrinterModelAliasRegistry.mk [PrinterModelHeadAlias.mk ["XYZ"] "M1"]
          [PrinterModelMacAlias.mk ["AA:BB"] "M2"])).detect_with_origin
        "XYZPrinter" (some "11:22:AA:BB") =
      some ⟨mkTestModel "M2" "NO2", .alias, some .mac⟩ ∧
    (PrinterModelRegistry.mk [mkTestModel "M1" "NO1", mkTestModel "M2" "NO2"]
        (PrinterModelAliasRegistry.mk [PrinterModelHeadAlias.mk ["XYZ"] "M1"]
          [PrinterModelMacAlias.mk ["AA:BB"] "M2"])).detect_with_origin
        "XYZPrinter" (some "11:22:33:44") =
      some ⟨mkTestModel "M1" "NO1", .alias, some .headName⟩ ∧
    PrinterModelMatch.usedAlias ⟨mkTestModel "M2" "NO2", .alias, some .mac⟩ = true ∧
    PrinterModelMatch.usedAlias ⟨mkTestModel "M1" "NO1", .alias, some .headName⟩ = true := by
  have h1 := (claim_C6_detect_with_origin
    (PrinterModelRegistry.mk [mkTestModel "M1" "NO1", mkTestModel "M2" "NO2"]
      (PrinterModelAliasRegistry.mk [PrinterModelHeadAlias.mk ["XYZ"] "M1"]
        [PrinterModelMacAlias.mk ["AA:BB"] "M2"]))
    "XYZPrinter" (some "11:22:AA:BB") (by decide)).2.2.1 (by decide) (by decide)
  have h2 := (claim_C6_detect_with_origin
    (PrinterModelRegistry.mk [mkTestModel "M1" "NO1", mkTestModel "M2" "NO2"]
      (PrinterModelAliasRegistry.mk [PrinterModelHeadAlias.mk ["XYZ"] "M1"]
        [PrinterModelMacAlias.mk ["AA:BB"] "M2"]))
    "XYZPrinter" (some "11:22:33:44") (by decide)).2.2.1 (by decide) (by decide)
  rw [h1, h2]
  refine ⟨by decide, by decide, rfl, rfl⟩

lemma devKey_mergeUnchecked (a b : DeviceInfo) :
    devKey (a.mergeUnchecked b) = devKey a := rfl

lemma lookupKey_nil (k : String × DeviceTransport) : lookupKey [] k = none := rfl

lemma lookupKey_cons (k' : String × DeviceTransport) (v : DeviceInfo)
    (rest : List ((String × DeviceTransport) × DeviceInfo))
    (k : String × DeviceTransport) :
    lookupKey ((k', v) :: rest) k = if k' = k then some v else lookupKey rest k := rfl

lemma upsert_nil (d : DeviceInfo) : upsert [] d = [(devKey d, d)] := rfl

lemma upsert_cons (k' : String × DeviceTransport) (v : DeviceInfo)
    (rest : List ((String × DeviceTransport) × DeviceInfo)) (d : DeviceInfo) :
    upsert ((k', v) :: rest) d =
      if devKey d = k' then (k', v.mergeUnchecked d) :: rest
      else (k', v) :: upsert rest d := rfl

lemma lookupKey_upsert (m : List ((String × DeviceTransport) × DeviceInfo))
    (d : DeviceInfo) (k : String × DeviceTransport) :
    lookupKey (upsert m d) k =
      if devKey d = k then
        some (match lookupKey m k with
          | none => d
          | some v => v.mergeUnchecked d)
      else lookupKey m k := by
  induction m with
  | nil =>
    by_cases h : devKey d = k <;>
      simp [upsert_nil, lookupKey_cons, lookupKey_nil, h]
  | cons e rest ih =>
    rcases e with ⟨k', v⟩
    rw [upsert_cons]
    by_cases h1 : devKey d = k'
    · rw [if_pos h1]
      simp only [lookupKey_cons]
      by_cases h2 : k' = k
      · subst h2
        simp [h1]
      · have h3 : ¬(devKey d = k) := by rw [h1]; exact h2
        simp [h2, h3]
    · rw [if_neg h1]
      simp only [lookupKey_cons]
      by_cases h2 : k' = k
      · subst h2
        simp [h1]
      · simp [h2, ih]

lemma optFold_cons (o : Option DeviceInfo) (d : DeviceInfo) (ds : List DeviceInfo) :
    optFold o (d :: ds) =
      optFold (some (match o with
        | none => d
        | some v => v.mergeUnchecked d)) ds := by
  rcases o with _ | v <;> rfl

lemma lookupKey_dedupeAux :
    ∀ (l : List DeviceInfo) (m : List ((String × DeviceTransport) × DeviceInfo))
      (k : String × DeviceTransport),
      lookupKey (dedupeAux l m) k =
        optFold (lookupKey m k) (l.filter (fun d => devKey d = k)) := by
  intro l
  induction l with
  | nil => intro m k; rfl
  | cons d rest ih =>
    intro m k
    rw [dedupeAux, ih, lookupKey_upsert]
    by_cases h : devKey d = k
    · rw [if_pos h, List.filter_cons_of_pos (by simpa using h), optFold_cons]
    · rw [if_neg h, List.filter_cons_of_neg (by simpa using h)]

lemma upsert_key_mem (m : List ((String × DeviceTransport) × DeviceInfo))
    (d : DeviceInfo) :
    ∀ e ∈ upsert m d, e.1 ∈ m.map Prod.fst ∨ e.1 = devKey d := by
  induction m with
  | nil =>
    intro e he
    simp [upsert] at he
    simp [he]
  | cons e' rest ih =>
    rcases e' with ⟨k', v⟩
    intro e he
    by_cases h1 : devKey d = k'
    · rw [upsert, if_pos h1] at he
      rcases List.mem_cons.mp he with h | h
      · subst h; simp
      · simp only [List.map_cons, List.mem_cons]
        exact Or.inl (Or.inr (List.mem_map_of_mem Prod.fst h))
    · rw [upsert, if_neg h1] at he
      rcases List.mem_cons.mp he with h | h
      · subst h; simp
      · rcases ih e h with h2 | h2
        · simp only [List.map_cons, List.mem_cons]
          exact Or.inl (Or.inr h2)
        · exact Or.inr h2

lemma upsert_pairwise (m : List ((String × DeviceTransport) × DeviceInfo))
    (d : DeviceInfo) (hm : m.Pairwise (fun a b => a.1 ≠ b.1)) :
    (upsert m d).Pairwise (fun a b => a.1 ≠ b.1) := by
  induction m with
  | nil => simp [upsert]
  | cons e rest ih =>
    rcases e with ⟨k', v⟩
    rcases List.pairwise_cons.mp hm with ⟨hhead, htail⟩
    by_cases h1 : devKey d = k'
    · rw [upsert, if_pos h1]
      exact List.pairwise_cons.mpr ⟨hhead, htail⟩
    · rw [upsert, if_neg h1]
      refine List.pairwise_cons.mpr ⟨?_, ih htail⟩
      intro e he
      rcases upsert_key_mem rest d e he with h | h
      · obtain ⟨e', he', hee⟩ := List.mem_map.mp h
        exact hee ▸ hhead e' he'
      · rw [h]
        exact fun hk => h1 hk.symm

lemma upsert_valkey (m : List ((String × DeviceTransport) × DeviceInfo))
    (d : DeviceInfo) (hm : ∀ e ∈ m, devKey e.2 = e.1) :
    ∀ e ∈ upsert m d, devKey e.2 = e.1 := by
  induction m with
  | nil =>
    intro e he
    simp [upsert] at he
    simp [he]
  | cons e' rest ih =>
    rcases e' with ⟨k', v⟩
    intro e he
    by_cases h1 : devKey d = k'
    · rw [upsert, if_pos h1] at he
      rcases List.mem_cons.mp he with h | h
      · subst h
        have := hm (k', v) (List.mem_cons_self _ _)
        simpa [devKey_mergeUnchecked] using this
      · exact hm e (List.mem_cons_of_mem _ h)
    · rw [upsert, if_neg h1] at he
      rcases List.mem_cons.mp he with h | h
      · subst h; exact hm (k', v) (List.mem_cons_self _ _)
      · exact ih (fun e' he' => hm e' (List.mem_cons_of_mem _ he')) e h

lemma dedupeAux_pairwise :
    ∀ (l : List DeviceInfo) (m : List ((String × DeviceTransport) × DeviceInfo)),
      m.Pairwise (fun a b => a.1 ≠ b.1) →
      (dedupeAux l m).Pairwise (fun a b => a.1 ≠ b.1) := by
  intro l
  induction l with
  | nil => intro m hm; exact hm
  | cons d rest ih => intro m hm; exact ih (upsert m d) (upsert_pairwise m d hm)

lemma dedupeAux_valkey :
    ∀ (l : List DeviceInfo) (m : List ((String × DeviceTransport) × DeviceInfo)),
      (∀ e ∈ m, devKey e.2 = e.1) →
      ∀ e ∈ dedupeAux l m, devKey e.2 = e.1 := by
  intro l
  induction l with
  | nil => intro m hm; exact hm
  | cons d rest ih => intro m hm; exact ih (upsert m d) (upsert_valkey m d hm)

lemma mem_iff_lookupKey :
    ∀ (m : List ((String × DeviceTransport) × DeviceInfo))
      (k : String × DeviceTransport) (v : DeviceInfo),
      m.Pairwise (fun a b => a.1 ≠ b.1) →
      ((k, v) ∈ m ↔ lookupKey m k = some v) := by
  intro m
  induction m with
  | nil => intro k v _; simp [lookupKey]
  | cons e rest ih =>
    rcases e with ⟨k', v'⟩
    intro k v hm
    rcases List.pairwise_cons.mp hm with ⟨hhead, htail⟩
    by_cases h : k' = k
    · subst h
      rw [lookupKey, if_pos rfl]
      constructor
      · intro hmem
        rcases List.mem_cons.mp hmem with h1 | h1
        · simp [Prod.ext_iff] at h1
          simp [h1]
        · exact absurd rfl (hhead (k', v) h1)
      · intro hv
        have : v' = v := Option.some.inj hv
        subst this
        exact List.mem_cons_self _ _
    · rw [lookupKey, if_neg h]
      rw [← ih k v htail]
      constructor
      · intro hmem
        rcases List.mem_cons.mp hmem with h1 | h1
        · exact absurd (congrArg Prod.fst h1).symm h
        · exact h1
      · exact List.mem_cons_of_mem _

lemma lookupKey_ne_none_iff :
    ∀ (m : List ((String × DeviceTransport) × DeviceInfo))
      (k : String × DeviceTransport),
      lookupKey m k ≠ none ↔ ∃ e ∈ m, e.1 = k := by
  intro m
  induction m with
  | nil => intro k; simp [lookupKey]
  | cons e rest ih =>
    rcases e with ⟨k', v⟩
    intro k
    by_cases h : k' = k
    · subst h
      rw [lookupKey, if_pos rfl]
      simp
    · rw [lookupKey, if_neg h]
      rw [ih k]
      constructor
      · rintro ⟨e, he, hek⟩
        exact ⟨e, List.mem_cons_of_mem _ he, hek⟩
      · rintro ⟨e, he, hek⟩
        rcases List.mem_cons.mp he with h1 | h1
        · rw [h1] at hek
          exact absurd hek h
        · exact ⟨e, h1, hek⟩

lemma optFold_none_iff :
    ∀ (ds : List DeviceInfo) (o : Option DeviceInfo),
      optFold o ds = none ↔ o = none ∧ ds = [] := by
  intro ds
  induction ds with
  | nil => intro o; simp [optFold]
  | cons d rest ih =>
    intro o
    rw [optFold_cons, ih]
    simp

lemma optFold_some_props :
    ∀ (ds : List DeviceInfo) (o : Option DeviceInfo) (v : DeviceInfo),
      optFold o ds = some v →
      (∀ x, o = some x → x.name.length ≤ v.name.length ∧
        (x.paired = some true → v.paired = some true)) ∧
      (∀ d ∈ ds, d.name.length ≤ v.name.length ∧
        (d.paired = some true → v.paired = some true)) := by
  intro ds
  induction ds with
  | nil =>
    intro o v hv
    refine ⟨?_, by simp⟩
    intro x hx
    rw [hx] at hv
    have : x = v := Option.some.inj hv
    subst this
    exact ⟨le_rfl, fun h => h⟩
  | cons d rest ih =>
    intro o v hv
    rw [optFold_cons] at hv
    obtain ⟨ho, hds⟩ := ih _ v hv
    have hw := ho _ rfl
    constructor
    · intro x hx
      subst hx
      rcases hw with ⟨hlen, hpaired⟩
      constructor
      · refine le_trans ?_ hlen
        simp [DeviceInfo.mergeUnchecked, mergeNameOp_length]
      · intro hx
        refine hpaired ?_
        simp [DeviceInfo.mergeUnchecked, mergePairedOp_true_iff, hx]
    · intro d' hd'
      rcases List.mem_cons.mp hd' with h | h
      · subst h
        rcases hw with ⟨hlen, hpaired⟩
        constructor
        · refine le_trans ?_ hlen
          rcases o with _ | x
          · exact le_rfl
          · simp [DeviceInfo.mergeUnchecked, mergeNameOp_length]
        · intro hx
          refine hpaired ?_
          rcases o with _ | x
          · exact hx
          · simp [DeviceInfo.mergeUnchecked, mergePairedOp_true_iff, hx]
      · exact hds d' h

lemma devLE_iff (a b : DeviceInfo) :
    devLE a b = true ↔
      (a.name < b.name ∨ (a.name = b.name ∧
        (a.address < b.address ∨ (a.address = b.address ∧
          a.transport.value ≤ b.transport.value)))) := by
  unfold devLE
  by_cases h1 : a.name = b.name
  · by_cases h2 : a.address = b.address <;> simp [h1, h2, lt_irrefl]
  · simp [h1]

lemma devLE_total (a b : DeviceInfo) : devLE a b || devLE b a := by
  rw [Bool.or_eq_true, devLE_iff, devLE_iff]
  by_cases h1 : a.name = b.name
  · by_cases h2 : a.address = b.address
    · rcases le_total a.transport.value b.transport.value with h | h
      · exact Or.inl (Or.inr ⟨h1, Or.inr ⟨h2, h⟩⟩)
      · exact Or.inr (Or.inr ⟨h1.symm, Or.inr ⟨h2.symm, h⟩⟩)
    · rcases lt_or_gt_of_ne h2 with h | h
      · exact Or.inl (Or.inr ⟨h1, Or.inl h⟩)
      · exact Or.inr (Or.inr ⟨h1.symm, Or.inl h⟩)
  · rcases lt_or_gt_of_ne h1 with h | h
    · exact Or.inl (Or.inl h)
    · exact Or.inr (Or.inl h)

lemma devLE_trans (a b c : DeviceInfo) (hab : devLE a b) (hbc : devLE b c) :
    devLE a c := by
  rw [devLE_iff] at hab hbc ⊢
  rcases hab with h1 | ⟨e1, h1⟩
  · rcases hbc with h2 | ⟨e2, _⟩
    · exact Or.inl (lt_trans h1 h2)
    · exact Or.inl (e2 ▸ h1)
  · rcases hbc with h2 | ⟨e2, h2⟩
    · exact Or.inl (e1 ▸ h2)
    · refine Or.inr ⟨e1.trans e2, ?_⟩
      rcases h1 with h1 | ⟨f1, h1⟩
      · rcases h2 with h2 | ⟨f2, _⟩
        · exact Or.inl (lt_trans h1 h2)
        · exact Or.inl (f2 ▸ h1)
      · rcases h2 with h2 | ⟨f2, h2⟩
        · exact Or.inl (f1 ▸ h2)
        · exact Or.inr ⟨f1.trans f2, le_trans h1 h2⟩

lemma upsert_append (m : List ((String × DeviceTransport) × DeviceInfo))
    (d : DeviceInfo) (h : ∀ e ∈ m, e.1 ≠ devKey d) :
    upsert m d = m ++ [(devKey d, d)] := by
  induction m with
  | nil => rfl
  | cons e rest ih =>
    rcases e with ⟨k', v⟩
    rw [upsert_cons,
      if_neg (fun hh => h (k', v) (List.mem_cons_self _ _) hh.symm)]
    rw [ih (fun e he => h e (List.mem_cons_of_mem _ he)), List.cons_append]

lemma dedupeAux_of_distinct :
    ∀ (l : List DeviceInfo) (m : List ((String × DeviceTransport) × DeviceInfo)),
      l.Pairwise (fun a b => devKey a ≠ devKey b) →
      (∀ d ∈ l, ∀ e ∈ m, e.1 ≠ devKey d) →
      dedupeAux l m = m ++ l.map (fun d => (devKey d, d)) := by
  intro l
  induction l with
  | nil => intro m _ _; simp [dedupeAux]
  | cons d rest ih =>
    intro m hp hm
    rcases List.pairwise_cons.mp hp with ⟨hhead, htail⟩
    rw [dedupeAux, upsert_append m d (hm d (List.mem_cons_self _ _))]
    rw [ih (m ++ [(devKey d, d)]) htail ?_]
    · simp [List.append_assoc]
    · intro d' hd' e he
      rcases List.mem_append.mp he with h | h
      · exact hm d' (List.mem_cons_of_mem _ hd') e h
      · rcases List.mem_singleton.mp h with rfl
        exact hhead d' hd'

/-- C9: `dedupe` keeps exactly one entry per `(address, transport)` key (and
exactly the input's keys), is idempotent, keeps the longest name among each
key's duplicates, reports `paired = true` whenever any duplicate does, and
returns the list sorted by `(name, address, transport.value)`. -/
theorem claim_C9_dedupe (l : List DeviceInfo) :
    (DeviceInfo.dedupe l).Pairwise (fun a b => devKey a ≠ devKey b) ∧
    (∀ k, k ∈ (DeviceInfo.dedupe l).map devKey ↔ k ∈ l.map devKey) ∧
    DeviceInfo.dedupe (DeviceInfo.dedupe l) = DeviceInfo.dedupe l ∧
    (∀ d ∈ DeviceInfo.dedupe l, ∀ d' ∈ l, devKey d' = devKey d →
      d'.name.length ≤ d.name.length) ∧
    (∀ d ∈ DeviceInfo.dedupe l,
      (∃ d' ∈ l, devKey d' = devKey d ∧ d'.paired = some true) →
      d.paired = some true) ∧
    (DeviceInfo.dedupe l).Pairwise (fun a b => devLE a b = true) := by
  have hP : (dedupeAux l []).Pairwise (fun a b => a.1 ≠ b.1) :=
    dedupeAux_pairwise l [] (by simp)
  have hV : ∀ e ∈ dedupeAux l [], devKey e.2 = e.1 :=
    dedupeAux_valkey l [] (by simp)
  have hvalsPairwise :
      ((dedupeAux l []).map Prod.snd).Pairwise (fun a b => devKey a ≠ devKey b) := by
    rw [List.pairwise_map]
    refine hP.imp_of_mem ?_
    intro e e' he he' hne
    rw [hV e he, hV e' he']
    exact hne
  have hperm : List.Perm (DeviceInfo.dedupe l) ((dedupeAux l []).map Prod.snd) :=
    List.mergeSort_perm ((dedupeAux l []).map Prod.snd) devLE
  have hsorted : (DeviceInfo.dedupe l).Pairwise (fun a b => devLE a b = true) :=
    List.sorted_mergeSort (fun a b c => devLE_trans a b c)
      (fun a b => devLE_total a b) ((dedupeAux l []).map Prod.snd)
  have hkeys : (DeviceInfo.dedupe l).Pairwise (fun a b => devKey a ≠ devKey b) :=
    (hperm.pairwise_iff (fun {a b} h hh => h hh.symm)).mpr hvalsPairwise
  have hgroup : ∀ d ∈ DeviceInfo.dedupe l,
      optFold none (l.filter (fun d' => devKey d' = devKey d)) = some d := by
    intro d hd
    have hdvals : d ∈ (dedupeAux l []).map Prod.snd := hperm.mem_iff.mp hd
    obtain ⟨e, he, hesnd⟩ := List.mem_map.mp hdvals
    have hkey : e.1 = devKey d := by
      rw [← hesnd]
      exact (hV e he).symm
    have hmem : (e.1, d) ∈ dedupeAux l [] := by
      have : (e.1, d) = e := by
        rw [← hesnd]
      rw [this]
      exact he
    have hlook : lookupKey (dedupeAux l []) e.1 = some d :=
      (mem_iff_lookupKey (dedupeAux l []) e.1 d hP).mp hmem
    rw [lookupKey_dedupeAux l [] e.1, lookupKey_nil] at hlook
    rw [← hkey]
    exact hlook
  refine ⟨hkeys, ?_, ?_, ?_, ?_, hsorted⟩
  · intro k
    have step1 : k ∈ (DeviceInfo.dedupe l).map devKey ↔
        k ∈ ((dedupeAux l []).map Prod.snd).map devKey :=
      (hperm.map devKey).mem_iff
    have step2 : k ∈ ((dedupeAux l []).map Prod.snd).map devKey ↔
        ∃ e ∈ dedupeAux l [], e.1 = k := by
      rw [List.map_map]
      constructor
      · intro hmem
        obtain ⟨e, he, hek⟩ := List.mem_map.mp hmem
        refine ⟨e, he, ?_⟩
        rw [← hV e he]
        exact hek
      · rintro ⟨e, he, hek⟩
        refine List.mem_map.mpr ⟨e, he, ?_⟩
        show devKey e.2 = k
        rw [hV e he]
        exact hek
    have step3 : (∃ e ∈ dedupeAux l [], e.1 = k) ↔
        lookupKey (dedupeAux l []) k ≠ none :=
      (lookupKey_ne_none_iff (dedupeAux l []) k).symm
    have step4 : lookupKey (dedupeAux l []) k =
        optFold none (l.filter (fun d => devKey d = k)) := by
      rw [lookupKey_dedupeAux l [] k, lookupKey_nil]
    have step5 : optFold none (l.filter (fun d => devKey d = k)) ≠ none ↔
        (l.filter (fun d => devKey d = k)) ≠ [] := by
      rw [Ne, optFold_none_iff]
      simp
    have step6 : (l.filter (fun d => devKey d = k)) ≠ [] ↔ k ∈ l.map devKey := by
      rw [Ne, List.filter_eq_nil_iff]
      simp
    rw [step1, step2, step3, step4, step5, step6]
  · rw [show DeviceInfo.dedupe (DeviceInfo.dedupe l) =
      ((dedupeAux (DeviceInfo.dedupe l) []).map Prod.snd).mergeSort devLE from rfl]
    rw [dedupeAux_of_distinct (DeviceInfo.dedupe l) [] hkeys (by simp)]
    rw [List.nil_append, List.map_map]
    rw [show ((Prod.snd ∘ fun d => (devKey d, d)) : DeviceInfo → DeviceInfo) = id
      from rfl]
    rw [List.map_id]
    exact List.mergeSort_of_sorted hsorted
  · intro d hd d' hd' hk
    have hfold := hgroup d hd
    have hmemf : d' ∈ l.filter (fun d'' => devKey d'' = devKey d) :=
      List.mem_filter.mpr ⟨hd', by simp [hk]⟩
    exact ((optFold_some_props _ none d hfold).2 d' hmemf).1
  · rintro d hd ⟨d', hd', hk, hpaired⟩
    have hfold := hgroup d hd
    have hmemf : d' ∈ l.filter (fun d'' => devKey d'' = devKey d) :=
      List.mem_filter.mpr ⟨hd', by simp [hk]⟩
    exact ((optFold_some_props _ none d hfold).2 d' hmemf).2 hpaired

/-- Witness for C9: idempotence at a concrete scan list with a duplicate
`(address, transport)` key. -/
theorem claim_C9_dedupe_witness :
    DeviceInfo.dedupe (DeviceInfo.dedupe
      [{ name := "P", address := "AA", paired := some true },
       { name := "Q", address := "BB" },
       { name := "Printer", address := "AA" }]) =
      DeviceInfo.dedupe
        [{ name := "P", address := "AA", paired := some true },
         { name := "Q", address := "BB" },
         { name := "Printer", address := "AA" }] :=
  (claim_C9_dedupe
    [{ name := "P", address := "AA", paired := some true },
     { name := "Q", address := "BB" },
     { name := "Printer", address := "AA" }]).2.2.1

end TiMini
